import Mathlib

/-!
Verification of the Ghostfolio Gauntlet agent subsystem
(`apps/api/src/app/gauntlet-agent/**`, the market-data retry helper, and the
cash-transfer / market-historical / portfolio-performance tools).

The TypeScript source is embedded shallowly:

* JavaScript strings are embedded as `List Char` (`Str`), with structural
  re-implementations of `trim`, `toLowerCase`, `includes`, `startsWith`,
  `slice(-k)` and `Array.from(new Set(...))`, so that every definition
  evaluates inside the kernel.
* JSON values are the inductive `JValue`.  A value read from the Redis cache
  is either an already-deserialized value or a string; a string is represented
  by the outcome of `JSON.parse` on it (`Option JValue`, `none` = parse error),
  since `JSON.parse` itself is not part of this repository.
* JavaScript property access `x.f` is `getFieldJ`: it raises (models the
  `TypeError`) on `null`, returns `undefined` (`none`) on primitives and on
  objects lacking the key.
* Asynchronous service calls (LLM, data provider, account service) are
  oracles passed as parameters: a chat-model oracle maps the current message
  list to the model's next (fully accumulated) response; backend calls are
  `Except Str` outcomes.  Effects (appended turns, intent-state writes, tool
  invocations, balance updates) are returned as explicit logs.
* JavaScript numbers appearing in the claims (amounts, balances) are embedded
  as `Int`; no claim under study depends on floating-point behaviour.
-/

namespace Gauntlet

/-- JavaScript strings, embedded as lists of characters so that all string
operations reduce in the kernel. -/
abbrev Str := List Char

/-- Lower-case a single ASCII character (models `String.prototype.toLowerCase`
on the ASCII range used by the agent). -/
def lowerChar (c : Char) : Char :=
  if 65 ≤ c.toNat ∧ c.toNat ≤ 90 then Char.ofNat (c.toNat + 32) else c

/-- Models `s.toLowerCase()`. -/
def toLowerS (s : Str) : Str := s.map lowerChar

/-- JavaScript whitespace characters relevant here. -/
def isWsChar (c : Char) : Bool :=
  c = ' ' || c = '\t' || c = '\n' || c = '\r'

/-- Models `s.trim()`. -/
def trimS (s : Str) : Str :=
  ((s.dropWhile isWsChar).reverse.dropWhile isWsChar).reverse

/-- Models `s.startsWith(p)`. -/
def startsWithS (s p : Str) : Bool := p.isPrefixOf s

/-- Models `s.includes(p)` (substring containment). -/
def includesS : Str → Str → Bool
  | [], p => p.isEmpty
  | c :: rest, p => p.isPrefixOf (c :: rest) || includesS rest p

/-- Models `arr.slice(-k)` for a non-negative `k`, including the JavaScript
quirk that `slice(-0)` is `slice(0)` and returns the whole array. -/
def sliceNeg (xs : List α) (k : Nat) : List α :=
  if k = 0 then xs else xs.drop (xs.length - k)

/-- Models `Array.from(new Set(xs))`: keeps the first occurrence of each
element, in insertion order.  `seen` is the set accumulated so far. -/
def dedupAux : List Str → List Str → List Str
  | _, [] => []
  | seen, x :: xs =>
    if seen.contains x then dedupAux seen xs else x :: dedupAux (x :: seen) xs

def dedupFirst (l : List Str) : List Str := dedupAux [] l

/-- Decimal rendering of a natural number (models JavaScript template-string
interpolation of the integer values used by the tools). -/
def natToStrAux : Nat → Nat → Str
  | 0, _ => []
  | _ + 1, n =>
    if n < 10 then [Char.ofNat (48 + n)]
    else natToStrAux n (n / 10) ++ [Char.ofNat (48 + n % 10)]

def natToStr (n : Nat) : Str := natToStrAux (n + 1) n

def intToStr (i : Int) : Str :=
  if i < 0 then '-' :: natToStr i.natAbs else natToStr i.natAbs

/-- Joins string pieces with a separator (models `Array.prototype.join`). -/
def joinSep (sep : Str) : List Str → Str
  | [] => []
  | [x] => x
  | x :: y :: rest => x ++ sep ++ joinSep sep (y :: rest)

/-- JSON values, the result type of a successful `JSON.parse`. -/
inductive JValue where
  | jnull
  | jbool (b : Bool)
  | jnum (n : Int)
  | jstr (s : Str)
  | jarr (xs : List JValue)
  | jobj (fields : List (Str × JValue))

open JValue

/-- Key lookup in a JSON object (first binding wins, as after `JSON.parse`). -/
def jget (fields : List (Str × JValue)) (k : Str) : Option JValue :=
  (fields.find? (fun p => p.1 = k)).map (fun p => p.2)

/-- JavaScript property access `v[k]`: throws a `TypeError` on `null`
(modelled as `Except.error ()`), yields `undefined` (`none`) on primitives,
arrays and absent keys. -/
def getFieldJ (v : JValue) (k : Str) : Except Unit (Option JValue) :=
  match v with
  | jnull => .error ()
  | jobj fs => .ok (jget fs k)
  | _ => .ok none

/-- JavaScript truthiness of a JSON value. -/
def truthy (v : JValue) : Bool :=
  match v with
  | jnull => false
  | jbool b => b
  | jnum n => n ≠ 0
  | jstr s => s ≠ []
  | jarr _ => true
  | jobj _ => true

/-! ## ConversationMemoryService (memory-system/conversation-memory.service.ts) -/

/-- A raw value read from the Redis cache under the conversation key.
`strRaw` carries the outcome of `JSON.parse` on the stored string
(`none` models a thrown `SyntaxError`); `arrRaw` is a value the cache layer
already deserialized; `otherRaw` is any other non-string type. -/
inductive StoredRaw where
  | arrRaw (xs : List JValue)
  | strRaw (parsed : Option JValue)
  | otherRaw

/-- The per-entry validity check of `parseStored` for the already-deserialized
array case: `m && typeof m === 'object' && (m.type === 'human' || m.type ===
'ai') && typeof m.content === 'string'`.  Arrays have `typeof 'object'` but no
`type` property, so only plain objects can pass. -/
def validStoredEntry (v : JValue) : Bool :=
  match v with
  | .jobj fs =>
    (match jget fs ("type".data) with
     | some (.jstr s) => s = "human".data || s = "ai".data
     | _ => false) &&
    (match jget fs ("content".data) with
     | some (.jstr _) => true
     | _ => false)
  | _ => false

def DEFAULT_MAX_HISTORY_MESSAGES : Nat := 20
def DEFAULT_MAX_STORED_MESSAGES : Nat := 50
def DEFAULT_MAX_RECENT_ENTITIES : Nat := 20

/-- `parseStored`: array values are kept only when every entry passes the
structural check; string values are `JSON.parse`d and any array result is
accepted verbatim (the source performs no per-entry validation on this path);
everything else yields `[]`. -/
def parseStored (raw : Option StoredRaw) : List JValue :=
  match raw with
  | none => []
  | some (.arrRaw xs) => if xs.all validStoredEntry then xs else []
  | some (.strRaw none) => []
  | some (.strRaw (some (.jarr xs))) => xs
  | some (.strRaw (some _)) => []
  | some .otherRaw => []

/-- A LangChain message produced by `toBaseMessages`.  The constructor payload
is what the source passes as `content` (`none` models `undefined`). -/
inductive BaseMsg where
  | humanB (content : Option JValue)
  | aiB (content : Option JValue)

/-- `toBaseMessages`: `m.type === 'human' ? new HumanMessage(m.content) : new
AIMessage(m.content)`.  Property access on a `null` entry raises. -/
def toBaseMessages (xs : List JValue) : Except Unit (List BaseMsg) :=
  xs.mapM (fun m => do
    let t ← getFieldJ m ("type".data)
    let c ← getFieldJ m ("content".data)
    pure (match t with
      | some (.jstr s) => if s = "human".data then BaseMsg.humanB c else BaseMsg.aiB c
      | _ => BaseMsg.aiB c))

/-- `getHistory`: parse the stored value, keep the last `limit` entries
(`slice(-limit)`), convert to LangChain messages. -/
def getHistory (raw : Option StoredRaw) (limit : Nat) : Except Unit (List BaseMsg) :=
  toBaseMessages (sliceNeg (parseStored raw) limit)

/-- A stored turn as written by `appendTurn` (`{type, content}`). -/
structure StoredMessage where
  type : Str
  content : Str
  deriving DecidableEq

/-- `appendTurn` on already-parsed state: push one human and one ai entry and
keep the newest `maxStored`.  (The surrounding read/serialize steps reuse
`parseStored` / `JSON.stringify`.) -/
def appendTurnCore (stored : List StoredMessage) (humanContent assistantContent : Str)
    (maxStored : Nat) : List StoredMessage :=
  sliceNeg (stored ++ [⟨"human".data, humanContent⟩, ⟨"ai".data, assistantContent⟩]) maxStored

inductive IntentLabel where
  | on_topic
  | off_topic
  | uncertain
  deriving DecidableEq

structure IntentState where
  lastIntent : IntentLabel
  lastToolUsed : Option Str
  recentEntities : List Str
  pendingClarification : Bool
  updatedAt : Str
  deriving DecidableEq

/-- `new Date(0).toISOString()`. -/
def epochIso : Str := "1970-01-01T00:00:00.000Z".data

def defaultIntentState : IntentState :=
  { lastIntent := .uncertain
    lastToolUsed := none
    recentEntities := []
    pendingClarification := false
    updatedAt := epochIso }

/-- Field extraction of `parseIntentState` once `fromRaw` passed the
`!fromRaw || typeof fromRaw !== 'object'` guard.  For arrays (which are
`typeof 'object'`) every property lookup yields `undefined`, so they are
handled by extraction over an empty field list. -/
def extractIntent (fs : List (Str × JValue)) : IntentState :=
  let li : IntentLabel :=
    match jget fs ("lastIntent".data) with
    | some (.jstr s) =>
      if s = "on_topic".data then .on_topic
      else if s = "off_topic".data then .off_topic
      else .uncertain
    | _ => .uncertain
  let ltu : Option Str :=
    match jget fs ("lastToolUsed".data) with
    | some (.jstr s) => if trimS s ≠ [] then some (trimS s) else none
    | _ => none
  let pc : Bool :=
    match jget fs ("pendingClarification".data) with
    | some v => truthy v
    | none => false
  let ua : Str :=
    match jget fs ("updatedAt".data) with
    | some (.jstr s) => if s ≠ [] then s else epochIso
    | _ => epochIso
  let re : List Str :=
    match jget fs ("recentEntities".data) with
    | some (.jarr xs) =>
      sliceNeg (((xs.filterMap (fun x => match x with | .jstr s => some s | _ => none)).map
        trimS).filter (fun e => e ≠ [])) DEFAULT_MAX_RECENT_ENTITIES
    | _ => []
  { lastIntent := li
    lastToolUsed := ltu
    recentEntities := re
    pendingClarification := pc
    updatedAt := ua }

/-- A raw value read from the cache under the intent-state key. -/
inductive IntentRaw where
  | strRawI (parsed : Option JValue)
  | valRawI (v : JValue)

/-- `parseIntentState`: strings are `JSON.parse`d (failure → `null`); falsy or
non-object results yield the defaults; objects go through field extraction. -/
def parseIntentState (raw : Option IntentRaw) : IntentState :=
  match raw with
  | none => defaultIntentState
  | some r =>
    let fromRaw : Option JValue :=
      match r with
      | .strRawI p => p
      | .valRawI v => some v
    match fromRaw with
    | none => defaultIntentState
    | some (.jobj fs) => extractIntent fs
    | some (.jarr _) => extractIntent []
    | some _ => defaultIntentState

/-- A merge patch for `updateIntentState`; `none` models an absent key. -/
structure IntentPatch where
  lastIntent : Option IntentLabel := none
  lastToolUsed : Option Str := none
  recentEntities : Option (List Str) := none
  pendingClarification : Option Bool := none

/-- `updateIntentState` on the already-loaded current state: merge the patch,
union the entity lists (trim, drop blanks, first-occurrence dedup via
`new Set`, keep the newest `DEFAULT_MAX_RECENT_ENTITIES`), stamp `updatedAt`
with the current time `now`. -/
def updateIntentState (current : IntentState) (patch : IntentPatch) (now : Str) :
    IntentState :=
  let merged := ((current.recentEntities ++ patch.recentEntities.getD []).map trimS).filter
    (fun e => e ≠ [])
  let uniqueEntities := sliceNeg (dedupFirst merged) DEFAULT_MAX_RECENT_ENTITIES
  { lastIntent := patch.lastIntent.getD current.lastIntent
    lastToolUsed :=
      match patch.lastToolUsed with
      | some s => some s
      | none => current.lastToolUsed
    recentEntities := uniqueEntities
    pendingClarification := patch.pendingClarification.getD current.pendingClarification
    updatedAt := now }

/-! ## Dates (the YYYY-MM-DD subset of date-fns parseISO used by the tools) -/

structure YMD where
  year : Nat
  month : Nat
  day : Nat
  deriving DecidableEq

def isDigitC (c : Char) : Bool := 48 ≤ c.toNat && c.toNat ≤ 57

def digitsVal (s : Str) : Option Nat :=
  if s ≠ [] && s.all isDigitC then
    some (s.foldl (fun acc c => acc * 10 + (c.toNat - 48)) 0)
  else none

def splitOnChar (c : Char) : Str → List Str
  | [] => [[]]
  | x :: xs =>
    if x = c then [] :: splitOnChar c xs
    else
      match splitOnChar c xs with
      | [] => [[x]]
      | h :: t => (x :: h) :: t

def isLeapYear (y : Nat) : Bool := (y % 4 = 0 && y % 100 ≠ 0) || y % 400 = 0

def daysInMonth (y m : Nat) : Nat :=
  if m = 2 then (if isLeapYear y then 29 else 28)
  else if m = 4 || m = 6 || m = 9 || m = 11 then 30
  else 31

/-- Models `parseISO` followed by `isValid` on the `YYYY-MM-DD` format the
market-historical tool asks the model for (other ISO-8601 shapes accepted by
date-fns are immaterial to the claims under study). -/
def parseIsoDate (s : Str) : Option YMD :=
  match splitOnChar '-' s with
  | [ys, ms, ds] =>
    if ys.length = 4 && ms.length = 2 && ds.length = 2 then
      match digitsVal ys, digitsVal ms, digitsVal ds with
      | some y, some m, some d =>
        if 1 ≤ m && m ≤ 12 && 1 ≤ d && d ≤ daysInMonth y m then some ⟨y, m, d⟩
        else none
      | _, _, _ => none
    else none
  | _ => none

/-- Chronological strict order on dates (models `Date` comparison). -/
def ymdLt (a b : YMD) : Bool :=
  a.year < b.year ||
  (a.year = b.year && (a.month < b.month || (a.month = b.month && a.day < b.day)))

/-! ## market_historical tool (tools/market-historical.tool.ts) -/

/-- Zod's name for the received type of a JSON value, used in its issue
messages. -/
def jsTypeName : JValue → Str
  | .jnull => "null".data
  | .jbool _ => "boolean".data
  | .jnum _ => "number".data
  | .jstr _ => "string".data
  | .jarr _ => "array".data
  | .jobj _ => "object".data

structure MHArgs where
  symbol : Str
  dataSource : Str
  fromS : Str
  toS : Str

/-- One required-string field check of `marketHistoricalSchema.safeParse`:
yields the field value or the zod issue text `path: message`. -/
def zodStringField (fs : List (Str × JValue)) (key : Str) : Except Str Str :=
  match jget fs key with
  | some (.jstr s) => .ok s
  | some v => .error (key ++ ": Expected string, received ".data ++ jsTypeName v)
  | none => .error (key ++ ": Required".data)

/-- `marketHistoricalSchema.safeParse` on a parsed JSON value; on failure the
payload is the `'; '`-joined issue list the tool interpolates. -/
def zodParseMH (v : JValue) : Except Str MHArgs :=
  match v with
  | .jobj fs =>
    match zodStringField fs ("symbol".data), zodStringField fs ("dataSource".data),
      zodStringField fs ("from".data), zodStringField fs ("to".data) with
    | .ok s, .ok ds, .ok f, .ok t => .ok ⟨s, ds, f, t⟩
    | rs, rds, rf, rt =>
      .error (joinSep ("; ".data)
        (([rs, rds, rf, rt].filterMap (fun r => match r with
          | .error e => some e
          | .ok _ => none))))
  | _ => .error (": Expected object, received ".data ++ jsTypeName v)

/-- Modelled from the spec: the Prisma `DataSource` enum is not part of the
sources under study; the spec names YAHOO as the equities provider and
COINGECKO as the crypto provider, and the claims only need that both are
members of the enum. -/
def DATA_SOURCE_VALUES : List Str :=
  ["ALPHA_VANTAGE".data, "COINGECKO".data, "EOD_HISTORICAL_DATA".data,
   "FINANCIAL_MODELING_PREP".data, "GOOGLE_SHEETS".data, "MANUAL".data,
   "RAPID_API".data, "YAHOO".data]

/-- One historical quote as returned by `DataProviderService.getHistorical`. -/
structure HistPoint where
  marketPrice : Option Int

/-- The provider result shape `{ [symbol]: { [date]: HistPoint } }`. -/
abbrev HistResult := List (Str × List (Str × HistPoint))

/-- Raw input handed to the tool's `func`; a string input is represented by
the outcome of `JSON.parse(input || '{}')`. -/
inductive MHInput where
  | strRawT (parsed : Option JValue)
  | objRawT (v : JValue)
  | nullRawT

def insertByLe (le : α → α → Bool) (x : α) : List α → List α
  | [] => [x]
  | y :: ys => if le x y then x :: y :: ys else y :: insertByLe le x ys

def sortByLe (le : α → α → Bool) : List α → List α
  | [] => []
  | x :: xs => insertByLe le x (sortByLe le xs)

def strLe : Str → Str → Bool
  | [], _ => true
  | _ :: _, [] => false
  | a :: as, b :: bs => if a = b then strLe as bs else decide (a.toNat < b.toNat)

/-- Message of the `SyntaxError` thrown by `JSON.parse`; its exact wording
comes from the JavaScript engine, not from this repository. -/
def JSON_PARSE_ERROR_MESSAGE : Str := "Unexpected token in JSON".data

/-- The `market_historical` tool body: argument validation, date and range
checks, data-source check, provider call, line formatting; every thrown error
is caught and rendered as an `Error: ...` string. -/
def marketHistoricalFunc (input : MHInput) (hist : Except Str HistResult) : Str :=
  match input with
  | .strRawT none =>
    "Error: Could not retrieve market historical data. ".data ++ JSON_PARSE_ERROR_MESSAGE
  | .strRawT (some v) => marketHistoricalMain v hist
  | .objRawT v => marketHistoricalMain v hist
  | .nullRawT => marketHistoricalMain (.jobj []) hist
where
  marketHistoricalMain (v : JValue) (hist : Except Str HistResult) : Str :=
    match zodParseMH v with
    | .error m =>
      "Error: Invalid arguments. ".data ++ m ++
        ". Required: symbol, dataSource, from, to (YYYY-MM-DD).".data
    | .ok args =>
      match parseIsoDate args.fromS, parseIsoDate args.toS with
      | some fd, some td =>
        if ymdLt td fd then
          "Error: from date must be before or equal to to date.".data
        else if ¬ DATA_SOURCE_VALUES.contains args.dataSource then
          "Error: Invalid dataSource. Must be one of: ".data ++
            joinSep (", ".data) DATA_SOURCE_VALUES ++ ".".data
        else
          match hist with
          | .error e => "Error: Could not retrieve market historical data. ".data ++ e
          | .ok res =>
            match (res.find? (fun p => p.1 = args.symbol)).map (fun p => p.2) with
            | none =>
              "No historical data found for symbol ".data ++ args.symbol ++
                " and date range ".data ++ args.fromS ++ " to ".data ++ args.toS ++ ".".data
            | some bySymbol =>
              if bySymbol.isEmpty then
                "No historical data found for symbol ".data ++ args.symbol ++
                  " and date range ".data ++ args.fromS ++ " to ".data ++ args.toS ++ ".".data
              else
                joinSep ("\n".data)
                  ((sortByLe (fun a b => strLe a.1 b.1) bySymbol).map
                    (fun p => args.symbol ++ ": ".data ++ p.1 ++ " -> ".data ++
                      (match p.2.marketPrice with
                       | some n => intToStr n
                       | none => "N/A".data)))
      | _, _ => "Error: Invalid date format. Use YYYY-MM-DD for from and to.".data

/-! ## cash_transfer tool (tools/cash-transfer.tool.ts) -/

structure Account where
  id : Str
  name : Str
  currency : Str
  balance : Int
  deriving DecidableEq

structure CTArgs where
  amount : Option Int := none
  fromAccountId : Option Str := none
  toAccountId : Option Str := none
  fromAccountName : Option Str := none
  toAccountName : Option Str := none
  confirm : Option Bool := none

/-- Raw input handed to the cash-transfer `func`:
string inputs and `{args: "..."}` wrappers carry their `JSON.parse` outcome,
`nullRawC` is `null`/`undefined`, `otherRawC` any other primitive. -/
inductive CTInput where
  | strRawC (parsed : Option JValue)
  | objArgsStr (parsed : Option JValue)
  | objPlain (v : JValue)
  | nullRawC
  | otherRawC

/-- Field extraction of `parseArgs` from a parsed JSON value.  Property access
on `null` (for example a string input `"null"`) raises a `TypeError`, which the
tool body later catches. -/
def extractCTArgs (v : JValue) : Except Str CTArgs :=
  match v with
  | .jnull => .error "Cannot read properties of null".data
  | .jobj fs =>
    .ok
      { amount := match jget fs ("amount".data) with
          | some (.jnum n) => some n
          | _ => none
        fromAccountId := match jget fs ("fromAccountId".data) with
          | some (.jstr s) => some (trimS s)
          | _ => none
        toAccountId := match jget fs ("toAccountId".data) with
          | some (.jstr s) => some (trimS s)
          | _ => none
        fromAccountName := match jget fs ("fromAccountName".data) with
          | some (.jstr s) => some (trimS s)
          | _ => none
        toAccountName := match jget fs ("toAccountName".data) with
          | some (.jstr s) => some (trimS s)
          | _ => none
        confirm := match jget fs ("confirm".data) with
          | some (.jbool b) => some b
          | _ => none }
  | _ => .ok {}

/-- `parseArgs`: shape analysis of the raw tool input.  A failed `JSON.parse`
is swallowed and yields `{}`, per the inner try/catch blocks. -/
def parseArgsCT (input : CTInput) : Except Str CTArgs :=
  match input with
  | .nullRawC => .ok {}
  | .otherRawC => .ok {}
  | .strRawC none => .ok {}
  | .strRawC (some v) => extractCTArgs v
  | .objArgsStr none => .ok {}
  | .objArgsStr (some v) => extractCTArgs v
  | .objPlain v => extractCTArgs v

/-- `normalize`: `input.trim().toLowerCase()`. -/
def normalizeS (s : Str) : Str := toLowerS (trimS s)

/-- `resolveAccount`: id lookup first, then unique exact name match, then
unique partial (substring) name match; ambiguity and misses are errors. -/
def resolveAccount (accounts : List Account) (accountId accountName : Option Str) :
    Except Str Account :=
  match accountId with
  | some aid =>
    match accounts.find? (fun a => a.id = aid) with
    | some a => .ok a
    | none => .error ("Account with id \"".data ++ aid ++ "\" not found.".data)
  | none =>
    match accountName with
    | some an =>
      let normalizedName := normalizeS an
      let exactMatches := accounts.filter (fun a => normalizeS a.name = normalizedName)
      match exactMatches with
      | [a] => .ok a
      | [] =>
        let partialMatches :=
          accounts.filter (fun a => includesS (normalizeS a.name) normalizedName)
        match partialMatches with
        | [a] => .ok a
        | [] => .error ("Account named \"".data ++ an ++ "\" not found.".data)
        | ms =>
          .error ("Multiple accounts match \"".data ++ an ++ "\": ".data ++
            joinSep (", ".data) (ms.map (fun a => a.name ++ " (".data ++ a.id ++ ")".data)) ++
            ".".data)
      | _ =>
        .error ("Multiple accounts match \"".data ++ an ++ "\". Please use account id.".data)
    | none =>
      .error ("Missing account reference. Provide fromAccountId/fromAccountName and toAccountId/toAccountName.".data)

/-- An `updateAccountBalance` call: `(accountId, amount, currency)`. -/
abbrev BalanceUpdate := Str × Int × Str

def ERR_AMOUNT : Str := "Error: amount is required and must be greater than 0.".data

def ctWrap (m : Str) : Str := "Error: Could not complete cash transfer. ".data ++ m

/-- The `cash_transfer` tool body.  `getAccounts` is the outcome of
`accountService.getAccounts`, `upd i` the outcome of the i-th
`updateAccountBalance` call (`none` = success).  Returns the reply string and
the list of balance-update calls actually issued. -/
def cashTransferRun (input : CTInput) (getAccounts : Except Str (List Account))
    (upd : Nat → Option Str) : Str × List BalanceUpdate :=
  match parseArgsCT input with
  | .error m => (ctWrap m, [])
  | .ok args =>
    match args.amount with
    | none => (ERR_AMOUNT, [])
    | some amt =>
      if amt ≤ 0 then (ERR_AMOUNT, [])
      else
        match getAccounts with
        | .error m => (ctWrap m, [])
        | .ok accounts =>
          match resolveAccount accounts args.fromAccountId args.fromAccountName with
          | .error e => ("Error: ".data ++ e, [])
          | .ok fromAccount =>
            match resolveAccount accounts args.toAccountId args.toAccountName with
            | .error e => ("Error: ".data ++ e, [])
            | .ok toAccount =>
              if fromAccount.id = toAccount.id then
                ("Error: source and destination accounts must be different.".data, [])
              else if fromAccount.balance < amt then
                ("Error: insufficient funds in \"".data ++ fromAccount.name ++
                  "\". Available: ".data ++ intToStr fromAccount.balance ++ " ".data ++
                  fromAccount.currency ++ ".".data, [])
              else if args.confirm ≠ some true then
                (joinSep ("\n".data)
                  ["Transfer preview".data,
                   "From: ".data ++ fromAccount.name ++ " (".data ++ fromAccount.id ++ ")".data,
                   "To: ".data ++ toAccount.name ++ " (".data ++ toAccount.id ++ ")".data,
                   "Amount: ".data ++ intToStr amt ++ " ".data ++ fromAccount.currency,
                   "Current source balance: ".data ++ intToStr fromAccount.balance ++
                     " ".data ++ fromAccount.currency,
                   "Action not executed. Set confirm=true to execute this transfer.".data], [])
              else
                let debit : BalanceUpdate := (fromAccount.id, -amt, fromAccount.currency)
                match upd 0 with
                | some m => (ctWrap m, [debit])
                | none =>
                  let credit : BalanceUpdate := (toAccount.id, amt, fromAccount.currency)
                  match upd 1 with
                  | some m => (ctWrap m, [debit, credit])
                  | none =>
                    (joinSep ("\n".data)
                      ["Transfer completed.".data,
                       "From: ".data ++ fromAccount.name,
                       "To: ".data ++ toAccount.name,
                       "Amount: ".data ++ intToStr amt ++ " ".data ++ fromAccount.currency],
                     [debit, credit])

/-! ## portfolio_performance tool (tools/portfolio-performance.tool.ts) -/

def VALID_DATE_RANGES : List Str :=
  ["1d".data, "1y".data, "5y".data, "max".data, "mtd".data, "wtd".data, "ytd".data]

/-- Raw input handed to the performance tool's `func`.  String inputs carry
both the raw text (for the catch-branch fallback `input.trim() || undefined`)
and their `JSON.parse` outcome; `objArgsP` is an object whose `args` field is
a string, carrying that string's parse outcome. -/
inductive PerfInput where
  | nullP
  | strP (s : Str) (parsed : Option JValue)
  | objArgsP (parsed : Option JValue)
  | objPlainP (v : JValue)
  | otherP

/-- The `raw` date-range candidate `parseDateRangeInput` extracts before
normalization.  Accessing `.dateRange` on a parsed `null` throws inside the
try block and falls to the catch branch. -/
def perfRawRange (input : PerfInput) : Option Str :=
  match input with
  | .nullP => none
  | .strP s parsed =>
    match parsed with
    | some (.jobj fs) =>
      match jget fs ("dateRange".data) with
      | some (.jstr d) => some d
      | _ => none
    | some .jnull => if trimS s = [] then none else some (trimS s)
    | some _ => none
    | none => if trimS s = [] then none else some (trimS s)
  | .objArgsP parsed =>
    match parsed with
    | some (.jobj fs) =>
      match jget fs ("dateRange".data) with
      | some (.jstr d) => some d
      | _ => none
    | _ => none
  | .objPlainP v =>
    match v with
    | .jobj fs =>
      match jget fs ("dateRange".data) with
      | some (.jstr d) => some d
      | _ => none
    | _ => none
  | .otherP => none

/-- `parseDateRangeInput`: normalize the candidate, accept the fixed range
names or a bare 4-digit year, default to `max`. -/
def parseDateRangeInput (input : PerfInput) : Str :=
  match input with
  | .nullP => "max".data
  | .otherP => "max".data
  | _ =>
    match perfRawRange input with
    | none => "max".data
    | some raw =>
      let normalized := toLowerS (trimS raw)
      if VALID_DATE_RANGES.contains normalized then normalized
      else if normalized.length = 4 && normalized.all isDigitC then normalized
      else "max".data

structure PerfNumbers where
  netPerformance : Option Int
  netPerformancePercentage : Option Int
  currentNetWorth : Option Int
  currentValueInBaseCurrency : Option Int
  totalInvestment : Option Int
  netPerformancePercentageWithCurrencyEffect : Option Int

structure ChartPoint where
  netWorth : Option Int
  value : Option Int
  valueWithCurrencyEffect : Option Int

structure PerfResp where
  performance : Option PerfNumbers
  chart : List ChartPoint
  hasErrors : Bool

/-- Percentage rendering; the JavaScript `toFixed(2)` on a float is modelled
on the integer embedding of the numeric domain. -/
def pctToStr (n : Int) : Str := intToStr n ++ ".00".data

def chartVal (p : ChartPoint) : Option Int :=
  match p.netWorth with
  | some v => some v
  | none =>
    match p.value with
    | some v => some v
    | none => p.valueWithCurrencyEffect

/-- `formatPerformanceResponse`. -/
def formatPerformanceResponse (result : PerfResp) : Str :=
  let parts1 : List Str :=
    match result.performance with
    | none => []
    | some p =>
      ["Net performance: ".data ++ intToStr (p.netPerformance.getD 0),
       "Net performance (%): ".data ++ pctToStr (p.netPerformancePercentage.getD 0) ++ "%".data,
       "Current net worth: ".data ++
         intToStr (p.currentNetWorth.getD (p.currentValueInBaseCurrency.getD 0)),
       "Total investment: ".data ++ intToStr (p.totalInvestment.getD 0)] ++
      (match p.netPerformancePercentageWithCurrencyEffect with
       | some w =>
         if p.netPerformancePercentage ≠ some w then
           ["Net performance with currency effect (%): ".data ++ pctToStr w ++ "%".data]
         else []
       | none => [])
  let parts2 : List Str :=
    match result.chart with
    | [] => []
    | first :: rest =>
      let last := rest.getLastD first
      match chartVal first, chartVal last with
      | none, none => []
      | fv, lv =>
        ["Chart: ".data ++ natToStr result.chart.length ++ " points; start ".data ++
          (match fv with | some v => intToStr v | none => "N/A".data) ++
          " -> end ".data ++
          (match lv with | some v => intToStr v | none => "N/A".data)]
  let parts3 : List Str :=
    if result.hasErrors then
      ["(Note: Some data may be incomplete due to calculation errors.)".data]
    else []
  let parts := parts1 ++ parts2 ++ parts3
  if parts.isEmpty then "No performance data available.".data
  else joinSep ("\n".data) parts

/-- The `portfolio_performance` tool body; `getPerf r` is the outcome of
`portfolioService.getPerformance` when called with date range `r`. -/
def portfolioPerformanceFunc (input : PerfInput) (getPerf : Str → Except Str PerfResp) : Str :=
  match getPerf (parseDateRangeInput input) with
  | .error e => "Error: Could not retrieve portfolio performance. ".data ++ e
  | .ok result => formatPerformanceResponse result

/-! ## portfolio_details tool (tools/portfolio-details.tool.ts)

The tool takes no input; its only failure path is a thrown
`portfolioService.getDetails` call, caught and rendered as an `Error:`
string.  Numeric fields follow the integer embedding of the numeric domain
(`toFixed(2)` percentage rendering is `pctToStr` on the scaled value). -/

structure DetailsSummary where
  totalValueInBaseCurrency : Option Int
  grossPerformance : Option Int
  netPerformance : Option Int
  annualizedPerformancePercent : Option Int
  cash : Option Int
  activityCount : Option Int

structure Holding where
  symbol : Str
  name : Str
  allocationInPercentage : Option Int
  valueInBaseCurrency : Option Int
  quantity : Option Int
  currency : Str

structure AccountEntry where
  name : Str
  valueInBaseCurrency : Option Int
  currency : Str

structure DetailsResp where
  summary : Option DetailsSummary
  holdings : List Holding
  accounts : List AccountEntry
  hasErrors : Bool

/-- Renders `${x ?? 'N/A'}`. -/
def optIntToStr (o : Option Int) : Str :=
  match o with
  | some n => intToStr n
  | none => "N/A".data

/-- The summary/holdings/accounts formatting of `portfolio_details`; holdings
are sorted by descending allocation as in the source comparator. -/
def formatDetailsResponse (result : DetailsResp) : Str :=
  let parts1 : List Str :=
    match result.summary with
    | none => []
    | some s =>
      [joinSep ("\n".data)
        ["Summary:".data,
         "- Total value (base currency): ".data ++ optIntToStr s.totalValueInBaseCurrency,
         "- Gross performance: ".data ++ optIntToStr s.grossPerformance,
         "- Net performance: ".data ++ optIntToStr s.netPerformance,
         "- Annualized performance (%): ".data ++ optIntToStr s.annualizedPerformancePercent,
         "- Cash: ".data ++ optIntToStr s.cash,
         "- Activity count: ".data ++ intToStr (s.activityCount.getD 0)]]
  let parts2 : List Str :=
    if result.holdings.isEmpty then []
    else
      ["Holdings (allocation %):\n".data ++ joinSep ("\n".data)
        ((sortByLe (fun a b =>
            (b.allocationInPercentage.getD 0) ≤ (a.allocationInPercentage.getD 0))
          result.holdings).map (fun h =>
            "- ".data ++ h.symbol ++ " (".data ++ h.name ++ "): ".data ++
              pctToStr ((h.allocationInPercentage.getD 0) * 100) ++ "%, value ".data ++
              intToStr (h.valueInBaseCurrency.getD 0) ++ " ".data ++ h.currency))]
  let parts3 : List Str :=
    if result.accounts.isEmpty then []
    else
      ["Accounts:\n".data ++ joinSep ("\n".data)
        (result.accounts.map (fun a =>
          "- ".data ++ a.name ++ ": ".data ++
            intToStr (a.valueInBaseCurrency.getD 0) ++ " ".data ++ a.currency))]
  let parts4 : List Str :=
    if result.hasErrors then
      ["(Note: Some data may be incomplete due to calculation errors.)".data]
    else []
  let parts := parts1 ++ parts2 ++ parts3 ++ parts4
  if parts.isEmpty then "No portfolio data available.".data
  else joinSep ("\n\n".data) parts

/-- The `portfolio_details` tool body; `getDetails` is the outcome of
`portfolioService.getDetails`. -/
def portfolioDetailsFunc (getDetails : Except Str DetailsResp) : Str :=
  match getDetails with
  | .error e => "Error: Could not retrieve portfolio details. ".data ++ e
  | .ok result => formatDetailsResponse result

/-! ## portfolio_report tool (tools/portfolio-report.tool.ts) -/

structure ReportRule where
  name : Str
  value : Option Bool
  evaluation : Option Str

structure ReportCategory where
  name : Str
  rules : Option (List ReportRule)

structure ReportStatistics where
  rulesActiveCount : Option Int
  rulesFulfilledCount : Option Int

structure ReportXRay where
  statistics : Option ReportStatistics
  categories : Option (List ReportCategory)

structure ReportResp where
  xRay : Option ReportXRay

/-- `formatRule`: `rule.value === true` picks the status, a truthy (non-empty)
`evaluation` string is appended in parentheses. -/
def formatRule (rule : ReportRule) : Str :=
  let status := if rule.value = some true then "Fulfilled".data else "Not fulfilled".data
  let msg : Str :=
    match rule.evaluation with
    | some ev => if ev ≠ [] then " (".data ++ ev ++ ")".data else []
    | none => []
  "- ".data ++ rule.name ++ ": ".data ++ status ++ msg

/-- `formatReportResponse`: missing `xRay` short-circuits; otherwise the
statistics line plus one block per category (`cat.rules?.length` truthiness:
a missing or empty rule list prints `- No rules`). -/
def formatReportResponse (result : ReportResp) : Str :=
  match result.xRay with
  | none => "No report data available.".data
  | some xr =>
    let parts1 : List Str :=
      match xr.statistics with
      | some st =>
        ["Rules: ".data ++ intToStr (st.rulesFulfilledCount.getD 0) ++ " of ".data ++
          intToStr (st.rulesActiveCount.getD 0) ++ " fulfilled.".data]
      | none => []
    let parts2 : List Str :=
      match xr.categories with
      | some cats =>
        if cats.isEmpty then []
        else
          (cats.map (fun cat =>
            ("\n".data ++ cat.name ++ ":".data) ::
            (match cat.rules with
             | some rs => if rs.isEmpty then ["- No rules".data] else rs.map formatRule
             | none => ["- No rules".data]))).flatten
      | none => []
    let parts := parts1 ++ parts2
    if parts.isEmpty then "No report data available.".data
    else trimS (joinSep ("\n".data) parts)

/-- The `portfolio_report` tool body; `getReport` is the outcome of
`portfolioService.getReport` (the `_input` argument is ignored by the
source). -/
def portfolioReportFunc (getReport : Except Str ReportResp) : Str :=
  match getReport with
  | .error e => "Error: Could not retrieve portfolio report. ".data ++ e
  | .ok result => formatReportResponse result

/-! ## activities_list tool (tools/activities-list.tool.ts)

`parseOptionalArgs` performs exactly the same raw-input shape dispatch as the
cash-transfer tool's `parseArgs` (string / `{args: "..."}` wrapper / plain
object / null / other primitive), so the same raw-input type `CTInput` is
reused; only the extracted fields differ.  The `take ?? 20` default, the
`new Date(...)`/`isNaN` filtering and the filter-list assembly only shape the
parameters of `orderService.getOrders`, which the embedding treats as the
oracle boundary: `getOrders` is a function of the parsed arguments. -/

structure ALArgs where
  startDate : Option Str := none
  endDate : Option Str := none
  symbol : Option Str := none
  accountId : Option Str := none
  take : Option Int := none

/-- Field extraction of `parseOptionalArgs` from a parsed JSON value;
property access on `null` raises a `TypeError` that the tool body catches. -/
def extractALArgs (v : JValue) : Except Str ALArgs :=
  match v with
  | .jnull => .error ("Cannot read properties of null".data)
  | .jobj fs =>
    .ok
      { startDate := match jget fs ("startDate".data) with
          | some (.jstr s) => some s
          | _ => none
        endDate := match jget fs ("endDate".data) with
          | some (.jstr s) => some s
          | _ => none
        symbol := match jget fs ("symbol".data) with
          | some (.jstr s) => some s
          | _ => none
        accountId := match jget fs ("accountId".data) with
          | some (.jstr s) => some s
          | _ => none
        take := match jget fs ("take".data) with
          | some (.jnum n) => if 0 < n then some n else none
          | _ => none }
  | _ => .ok {}

/-- `parseOptionalArgs`: the shared shape analysis, then field extraction. -/
def parseALArgs (input : CTInput) : Except Str ALArgs :=
  match input with
  | .nullRawC => .ok {}
  | .otherRawC => .ok {}
  | .strRawC none => .ok {}
  | .strRawC (some v) => extractALArgs v
  | .objArgsStr none => .ok {}
  | .objArgsStr (some v) => extractALArgs v
  | .objPlain v => extractALArgs v

structure SymbolProfileInfo where
  symbol : Option Str
  name : Option Str

structure ActivityAccount where
  name : Option Str

/-- One activity as consumed by `formatActivity`.  `date` carries the
already-rendered `toISOString().slice(0, 10)` text (the `Date` object itself
lives outside this repository). -/
structure Activity where
  date : Str
  type : Option Str
  symbolProfile : Option SymbolProfileInfo
  quantity : Option Int
  unitPrice : Option Int
  value : Option Int
  valueInBaseCurrency : Option Int
  account : Option ActivityAccount

/-- `formatActivity`: the pipe-separated line with `?? 'N/A'` / `?? 0`
defaults and the `valueInBaseCurrency ?? value ?? quantity * unitPrice`
fallback chain. -/
def formatActivity (a : Activity) : Str :=
  let typeText := a.type.getD ("N/A".data)
  let symbolOrName : Str :=
    match a.symbolProfile with
    | some sp =>
      match sp.symbol with
      | some s => s
      | none => sp.name.getD ("N/A".data)
    | none => "N/A".data
  let quantity := a.quantity.getD 0
  let unitPrice := a.unitPrice.getD 0
  let value : Int :=
    match a.valueInBaseCurrency with
    | some v => v
    | none =>
      match a.value with
      | some v => v
      | none => quantity * unitPrice
  let accountName : Str :=
    match a.account with
    | some acc => acc.name.getD ("N/A".data)
    | none => "N/A".data
  a.date ++ " | ".data ++ typeText ++ " | ".data ++ symbolOrName ++ " | qty ".data ++
    intToStr quantity ++ " @ ".data ++ intToStr unitPrice ++ " | value ".data ++
    intToStr value ++ " | ".data ++ accountName

/-- The `activities_list` tool body: parse the optional filters, call
`orderService.getOrders`, format; every thrown error (including the
null-property `TypeError` of the parser) is caught and rendered as an
`Error:` string. -/
def activitiesListFunc (input : CTInput)
    (getOrders : ALArgs → Except Str (List Activity)) : Str :=
  match parseALArgs input with
  | .error m => "Error: Could not retrieve activities. ".data ++ m
  | .ok args =>
    match getOrders args with
    | .error e => "Error: Could not retrieve activities. ".data ++ e
    | .ok activities =>
      if activities.isEmpty then "No activities found for the given filters.".data
      else
        "Activities (".data ++ natToStr activities.length ++ "):\n".data ++
          joinSep ("\n".data) (activities.map formatActivity)

/-- The parsed JSON value the market-historical body validates, as a function
of the raw input (`JSON.parse(input || '{}')` for strings, `input ?? {}`
otherwise); `none` means `JSON.parse` threw. -/
def mhParsedInput (input : MHInput) : Option JValue :=
  match input with
  | .strRawT p => p
  | .objRawT v => some v
  | .nullRawT => some (.jobj [])

/-- A fully-valid market-historical argument object (for the C8 witness). -/
def mhValidArgs : JValue :=
  .jobj [("symbol".data, .jstr ("AAPL".data)),
         ("dataSource".data, .jstr ("YAHOO".data)),
         ("from".data, .jstr ("2024-01-15".data)),
         ("to".data, .jstr ("2024-01-15".data))]

/-! ## Market-data retry helper (isNetworkError / withRetryOnNetworkError) -/

/-- A thrown JavaScript error as inspected by `isNetworkError`: either a
non-object value or an object with the optional `code`, `message`,
`cause.code` and `errors[].code` properties. -/
inductive NetErr where
  | prim
  | objE (code : Option Str) (message : Option Str) (causeCode : Option Str)
      (errorsArr : Option (List (Option Str)))

/-- `isNetworkError`: ETIMEDOUT/ENETUNREACH codes (directly or on `cause`),
a message containing `fetch failed`, or an `errors` array containing such a
code. -/
def isNetworkError (e : NetErr) : Bool :=
  match e with
  | .prim => false
  | .objE code message causeCode errorsArr =>
    let c : Option Str :=
      match code with
      | some s => some s
      | none => causeCode
    let msg := message.getD []
    if c = some ("ETIMEDOUT".data) || c = some ("ENETUNREACH".data) then true
    else if includesS msg ("fetch failed".data) then true
    else
      match errorsArr with
      | some es =>
        es.any (fun ec => ec = some ("ETIMEDOUT".data) || ec = some ("ENETUNREACH".data))
      | none => false

def RETRY_ATTEMPTS : Nat := 3
def RETRY_DELAY_MS : Nat := 1500

/-- The retry loop of `withRetryOnNetworkError`.  `fn i` is the outcome of the
i-th invocation of the wrapped async function.  Returns the final outcome, the
number of invocations performed, and the backoff delays awaited between them.
The fuel-exhausted branch models the trailing `throw lastError`, which is dead
code for `RETRY_ATTEMPTS = 3` (the last loop iteration always returns or
rethrows). -/
def retryGo (fn : Nat → Except NetErr T) (lastErr : Except NetErr T) :
    Nat → Nat → Except NetErr T × Nat × List Nat
  | _, 0 => (lastErr, 0, [])
  | attempt, n + 1 =>
    match fn attempt with
    | .ok v => (.ok v, 1, [])
    | .error e =>
      if decide (attempt < RETRY_ATTEMPTS - 1) && isNetworkError e then
        let rest := retryGo fn (.error e) (attempt + 1) n
        (rest.1, rest.2.1 + 1, RETRY_DELAY_MS * 2 ^ attempt :: rest.2.2)
      else (.error e, 1, [])

def withRetryOnNetworkError (fn : Nat → Except NetErr T) :
    Except NetErr T × Nat × List Nat :=
  retryGo fn (.error .prim) 0 RETRY_ATTEMPTS

/-! ## GauntletAgentService (gauntlet-agent.service.ts): chat and chatStream

The tool-augmented chat model is an oracle from the current message list to
the model's next fully-accumulated response (for `chatStream` the per-token
chunks are concatenated by `accumulated.concat(c)`; only the accumulated
response drives control flow, so chunking is collapsed).  A registered tool is
a name paired with its (pure, never-throwing) `invoke`; its argument object is
handed over as a JSON value, JSON-encoded first for `market_historical`
(`JSON.parse ∘ JSON.stringify` is the identity on JSON values, so the encoded
string is represented by the value it encodes). -/

structure ToolCallReq where
  name : Str
  args : JValue
  id : Str

structure ModelResp where
  content : Str
  toolCalls : List ToolCallReq

inductive ChatMsg where
  | system (s : Str)
  | human (s : Str)
  | ai (r : ModelResp)
  | toolRes (content : Str) (id : Str)

abbrev ModelOracle := List ChatMsg → ModelResp

/-- What the orchestrator passes to `tool.invoke`: the JSON-encoded argument
string for `market_historical`, the plain object for every other tool. -/
inductive DeliveredInput where
  | asString (v : JValue)
  | asObject (v : JValue)

abbrev ToolReg := List (Str × (DeliveredInput → Str))

def OFF_TOPIC_MESSAGE : Str :=
  "I can only help with portfolio, activities, and market data in this app.".data

def FALLBACK_TEXT : Str := "I could not generate a response.".data

def TOOL_NOT_FOUND : Str := "Tool not found or not invokable.".data

def maxToolRounds : Nat := 5

/-- The system prompt constant; only its presence in the message list matters
to the properties under study, so the full text is abbreviated. -/
def SYSTEM_PROMPT : Str :=
  "You are a finance-focused assistant that explains portfolio data.".data

/-- The off-topic decision applied to the intent model's reply:
`(intentLower.includes('no') && !intentLower.includes('yes')) ||
intentLower === 'n'`. -/
def isOffTopicReply (reply : Str) : Bool :=
  let intentLower := toLowerS (trimS reply)
  (includesS intentLower ("no".data) && !includesS intentLower ("yes".data)) ||
    intentLower = "n".data

/-- `text.trim() || 'I could not generate a response.'`. -/
def withFallback (s : Str) : Str :=
  if trimS s = [] then FALLBACK_TEXT else trimS s

/-- The tool input the orchestrator builds for one requested call. -/
def deliveredInputFor (tc : ToolCallReq) : DeliveredInput :=
  if tc.name = "market_historical".data then .asString tc.args else .asObject tc.args

/-- Execute one requested tool call: build the input, look the tool up in the
registry, record the invocation and the resulting `ToolMessage`. -/
def execOne (tools : ToolReg) (tc : ToolCallReq) : (Str × DeliveredInput) × ChatMsg :=
  let input := deliveredInputFor tc
  let content :=
    match tools.find? (fun t => t.1 = tc.name) with
    | some t => t.2 input
    | none => TOOL_NOT_FOUND
  ((tc.name, input), ChatMsg.toolRes content tc.id)

/-- The `chat` tool loop: `while (response.tool_calls && ... && round <
maxToolRounds)`.  Returns the final response, the number of tool rounds run,
and the tool-invocation log. -/
def chatLoop (oracle : ModelOracle) (tools : ToolReg) :
    List ChatMsg → ModelResp → Nat → ModelResp × Nat × List (Str × DeliveredInput)
  | _, response, 0 => (response, 0, [])
  | messages, response, n + 1 =>
    if response.toolCalls.isEmpty then (response, 0, [])
    else
      let execs := response.toolCalls.map (execOne tools)
      let messages2 := messages ++ [ChatMsg.ai response] ++ execs.map (fun e => e.2)
      let response2 := oracle messages2
      let rest := chatLoop oracle tools messages2 response2 n
      (rest.1, rest.2.1 + 1, execs.map (fun e => e.1) ++ rest.2.2)

/-- The observable outcome of one `chat` / `chatStream` request. -/
structure ChatRun where
  finalText : Str
  offTopic : Bool
  modelCalls : Nat
  toolRounds : Nat
  appendedTurns : List (Str × Str)
  intentUpdates : List IntentPatch
  invocations : List (Str × DeliveredInput)
  lastContent : Str

/-- `GauntletAgentService.chat`: intent gate on the classifier reply, then the
bounded tool loop, then `appendTurn` with the fallback-defaulted final text.
`intentUpdates` logs `updateIntentState` calls (the method performs none). -/
def chat (oracle : ModelOracle) (tools : ToolReg) (intentReply : Str)
    (history : List ChatMsg) (message : Str) : ChatRun :=
  if isOffTopicReply intentReply then
    { finalText := OFF_TOPIC_MESSAGE
      offTopic := true
      modelCalls := 0
      toolRounds := 0
      appendedTurns := []
      intentUpdates := []
      invocations := []
      lastContent := [] }
  else
    let messages := ChatMsg.system SYSTEM_PROMPT :: history ++ [ChatMsg.human message]
    let r0 := oracle messages
    let res := chatLoop oracle tools messages r0 maxToolRounds
    let finalText := withFallback res.1.content
    { finalText := finalText
      offTopic := false
      modelCalls := 1 + res.2.1
      toolRounds := res.2.1
      appendedTurns := [(message, finalText)]
      intentUpdates := []
      invocations := res.2.2
      lastContent := res.1.content }

/-- The `chatStream` round loop: `while (round < maxToolRounds)` with the
model call at the top of each iteration; on fuel exhaustion the text of the
last accumulated response is used.  Returns (accumulated text for the final
answer, model calls, tool rounds, invocation log). -/
def streamLoop (oracle : ModelOracle) (tools : ToolReg) :
    List ChatMsg → Str → Nat → Str × Nat × Nat × List (Str × DeliveredInput)
  | _, lastContent, 0 => (lastContent, 0, 0, [])
  | messages, _, n + 1 =>
    let resp := oracle messages
    if resp.toolCalls.isEmpty then (resp.content, 1, 0, [])
    else
      let execs := resp.toolCalls.map (execOne tools)
      let messages2 := messages ++ [ChatMsg.ai resp] ++ execs.map (fun e => e.2)
      let rest := streamLoop oracle tools messages2 resp.content n
      (rest.1, rest.2.1 + 1, rest.2.2.1 + 1, execs.map (fun e => e.1) ++ rest.2.2.2)

/-- `GauntletAgentService.chatStream` (conversation-id and api-key events are
immaterial to the claims): intent gate, bounded streaming loop, `appendTurn`
with the fallback-defaulted final text. -/
def chatStream (oracle : ModelOracle) (tools : ToolReg) (intentReply : Str)
    (history : List ChatMsg) (message : Str) : ChatRun :=
  if isOffTopicReply intentReply then
    { finalText := OFF_TOPIC_MESSAGE
      offTopic := true
      modelCalls := 0
      toolRounds := 0
      appendedTurns := []
      intentUpdates := []
      invocations := []
      lastContent := [] }
  else
    let messages := ChatMsg.system SYSTEM_PROMPT :: history ++ [ChatMsg.human message]
    let res := streamLoop oracle tools messages [] maxToolRounds
    let finalText := withFallback res.1
    { finalText := finalText
      offTopic := false
      modelCalls := res.2.1
      toolRounds := res.2.2.1
      appendedTurns := [(message, finalText)]
      intentUpdates := []
      invocations := res.2.2.2
      lastContent := res.1 }

/-! ## Definitions taken from the spec's wording (for comparison only) -/

/-- Modelled from the spec: the fixed domain-keyword vocabulary of the
heuristic override law ("portfolio, allocation, performance, activities,
price, report, etc."); no such vocabulary exists in the source. -/
def domainKeywords : List Str :=
  ["portfolio".data, "allocation".data, "performance".data, "activities".data,
   "price".data, "report".data]

/-- Modelled from the spec: a message contains a recognized domain keyword. -/
def containsDomainKeyword (message : Str) : Bool :=
  domainKeywords.any (fun k => includesS (toLowerS message) k)

/-- Modelled from the spec: the hydrated market-history arguments the
argument-hydration property promises for the message "price of AAPL on
Jan 15" with a prior turn mentioning "2024". -/
def hydratedArgsSpec : JValue :=
  .jobj [("symbol".data, .jstr ("AAPL".data)),
         ("dataSource".data, .jstr ("YAHOO".data)),
         ("from".data, .jstr ("2024-01-15".data)),
         ("to".data, .jstr ("2024-01-15".data))]

/-! ## Concrete oracles and registries used by counterexamples and witnesses -/

/-- A chat-model oracle that never requests tools and answers nothing. -/
def oracleNull : ModelOracle := fun _ => ⟨[], []⟩

/-- A chat-model oracle answering "Done." without tool calls. -/
def oracleDone : ModelOracle := fun _ => ⟨"Done.".data, []⟩

/-- A chat-model oracle that always requests one more `market_historical`
call with empty arguments: drives the loop to budget exhaustion. -/
def oracleLooping : ModelOracle :=
  fun _ => ⟨[], [⟨"market_historical".data, .jobj [], "1".data⟩]⟩

def isToolResMsg : ChatMsg → Bool
  | .toolRes _ _ => true
  | _ => false

/-- A chat-model oracle that first requests `market_historical` with empty
arguments, then (once a tool result is in the transcript) answers "final". -/
def oracleMissingArgs : ModelOracle := fun msgs =>
  if msgs.any isToolResMsg then ⟨"final".data, []⟩
  else ⟨[], [⟨"market_historical".data, .jobj [], "1".data⟩]⟩

/-- A chat-model oracle that first requests `market_historical` with only a
symbol argument, then answers "final". -/
def oracleSymbolOnly : ModelOracle := fun msgs =>
  if msgs.any isToolResMsg then ⟨"final".data, []⟩
  else ⟨[], [⟨"market_historical".data, .jobj [("symbol".data, .jstr ("AAPL".data))], "1".data⟩]⟩

/-- The market-historical tool as registered: unwrap the delivered input the
way `DynamicTool` hands it to `func` (a JSON string stays a string and is
re-parsed; an object is used directly). -/
def mhRegistered (hist : Except Str HistResult) : DeliveredInput → Str
  | .asString v => marketHistoricalFunc (.strRawT (some v)) hist
  | .asObject v => marketHistoricalFunc (.objRawT v) hist

/-- A registry holding the market-historical tool over an empty provider. -/
def toolsMH : ToolReg := [("market_historical".data, mhRegistered (.ok []))]

/-- Concrete accounts for the cash-transfer witness. -/
def acctChecking : Account :=
  { id := "a1".data, name := "Checking".data, currency := "USD".data, balance := 100 }

def acctSavings : Account :=
  { id := "a2".data, name := "Savings".data, currency := "USD".data, balance := 5 }

/-- A fully-specified confirmed transfer request. -/
def ctConfirmedInput : CTInput :=
  .objPlain (.jobj [("amount".data, .jnum 50),
    ("fromAccountName".data, .jstr ("Checking".data)),
    ("toAccountName".data, .jstr ("Savings".data)),
    ("confirm".data, .jbool true)])

/-- A balance-update oracle on which every call succeeds. -/
def updAllOk : Nat → Option Str := fun _ => none

/-- A thrown error with a non-transient code (for the retry witness). -/
def errNonTransient : NetErr := .objE (some ("EACCES".data)) none none none

/-- A wrapped function that always fails non-transiently. -/
def fnNonTransient : Nat → Except NetErr Unit := fun _ => .error errNonTransient

/-! # Helper lemmas -/

theorem startsWith_extend {s t p : Str} (h : startsWithS s p = true) :
    startsWithS (s ++ t) p = true := by
  simp only [startsWithS, List.isPrefixOf_iff_prefix] at h ⊢
  exact h.trans (List.prefix_append s t)

theorem startsWith_self (s : Str) : startsWithS s s = true := by
  simp [startsWithS, List.isPrefixOf_iff_prefix]

theorem sliceNeg_sublist (xs : List α) (k : Nat) : (sliceNeg xs k).Sublist xs := by
  unfold sliceNeg
  split
  · exact List.Sublist.refl xs
  · exact List.drop_sublist _ xs

theorem sliceNeg_length_le (xs : List α) {k : Nat} (hk : k ≠ 0) :
    (sliceNeg xs k).length ≤ k := by
  unfold sliceNeg
  rw [if_neg hk, List.length_drop]
  omega

theorem mem_dedupAux {y : Str} :
    ∀ (xs seen : List Str), y ∈ dedupAux seen xs → y ∈ xs ∧ seen.contains y = false := by
  intro xs
  induction xs with
  | nil => intro seen h; simp [dedupAux] at h
  | cons x xs ih =>
    intro seen h
    simp only [dedupAux] at h
    by_cases hc : seen.contains x
    · rw [if_pos hc] at h
      have := ih seen h
      exact ⟨List.mem_cons_of_mem x this.1, this.2⟩
    · rw [if_neg hc] at h
      rcases List.mem_cons.mp h with h1 | h1
      · subst h1
        exact ⟨List.mem_cons_self y xs, by simpa using hc⟩
      · have := ih (x :: seen) h1
        refine ⟨List.mem_cons_of_mem x this.1, ?_⟩
        have h2 := this.2
        simp only [List.contains, List.elem_cons] at h2
        split at h2
        · exact absurd h2 (by simp)
        · exact h2

theorem dedupAux_nodup : ∀ (xs seen : List Str), (dedupAux seen xs).Nodup := by
  intro xs
  induction xs with
  | nil => intro seen; simp [dedupAux]
  | cons x xs ih =>
    intro seen
    simp only [dedupAux]
    by_cases hc : seen.contains x
    · rw [if_pos hc]; exact ih seen
    · rw [if_neg hc]
      refine List.nodup_cons.mpr ⟨?_, ih (x :: seen)⟩
      intro hmem
      have := (mem_dedupAux xs (x :: seen) hmem).2
      simp [List.contains, List.elem_cons] at this

theorem dedupFirst_nodup (l : List Str) : (dedupFirst l).Nodup := dedupAux_nodup l []

theorem mem_dedupFirst {y : Str} {l : List Str} (h : y ∈ dedupFirst l) : y ∈ l :=
  (mem_dedupAux l [] h).1

theorem chatLoop_rounds_le (oracle : ModelOracle) (tools : ToolReg) :
    ∀ (fuel : Nat) (messages : List ChatMsg) (resp : ModelResp),
      (chatLoop oracle tools messages resp fuel).2.1 ≤ fuel := by
  intro fuel
  induction fuel with
  | zero => intro messages resp; simp [chatLoop]
  | succ n ih =>
    intro messages resp
    simp only [chatLoop]
    split
    · simp
    · exact Nat.succ_le_succ (ih _ _)

theorem streamLoop_bounds (oracle : ModelOracle) (tools : ToolReg) :
    ∀ (fuel : Nat) (messages : List ChatMsg) (lastContent : Str),
      (streamLoop oracle tools messages lastContent fuel).2.1 ≤ fuel ∧
      (streamLoop oracle tools messages lastContent fuel).2.2.1 ≤ fuel := by
  intro fuel
  induction fuel with
  | zero => intro messages lastContent; simp [streamLoop]
  | succ n ih =>
    intro messages lastContent
    simp only [streamLoop]
    split
    · simp
    · exact ⟨Nat.succ_le_succ (ih _ _).1, Nat.succ_le_succ (ih _ _).2⟩

theorem chatLoop_invocations (oracle : ModelOracle) (tools : ToolReg) :
    ∀ (fuel : Nat) (messages : List ChatMsg) (resp : ModelResp)
      (p : Str × DeliveredInput), p ∈ (chatLoop oracle tools messages resp fuel).2.2 →
      ∃ tc : ToolCallReq, p = (tc.name, deliveredInputFor tc) := by
  intro fuel
  induction fuel with
  | zero => intro messages resp p h; simp [chatLoop] at h
  | succ n ih =>
    intro messages resp p h
    simp only [chatLoop] at h
    split at h
    · simp at h
    · rcases List.mem_append.mp h with h1 | h1
      · rcases List.mem_map.mp h1 with ⟨e, he, hep⟩
        rcases List.mem_map.mp he with ⟨tc, _, htc⟩
        refine ⟨tc, ?_⟩
        rw [← hep, ← htc]
        rfl
      · exact ih _ _ p h1

theorem streamLoop_invocations (oracle : ModelOracle) (tools : ToolReg) :
    ∀ (fuel : Nat) (messages : List ChatMsg) (lastContent : Str)
      (p : Str × DeliveredInput),
      p ∈ (streamLoop oracle tools messages lastContent fuel).2.2.2 →
      ∃ tc : ToolCallReq, p = (tc.name, deliveredInputFor tc) := by
  intro fuel
  induction fuel with
  | zero => intro messages lastContent p h; simp [streamLoop] at h
  | succ n ih =>
    intro messages lastContent p h
    simp only [streamLoop] at h
    split at h
    · simp at h
    · rcases List.mem_append.mp h with h1 | h1
      · rcases List.mem_map.mp h1 with ⟨e, he, hep⟩
        rcases List.mem_map.mp he with ⟨tc, _, htc⟩
        refine ⟨tc, ?_⟩
        rw [← hep, ← htc]
        rfl
      · exact ih _ _ p h1

/-! # Claim theorems -/

/-- C1: both `chat` and `chatStream` run at most `maxToolRounds = 5` tool
rounds; on budget exhaustion no further model calls are issued (`chat` makes
exactly `1 + toolRounds ≤ 6` model calls, `chatStream` at most 5), and the
final answer is the trimmed accumulated text of the last response, defaulting
to the fallback sentence when that text is empty. -/
theorem c1_round_budget (oracle : ModelOracle) (tools : ToolReg) (intentReply : Str)
    (history : List ChatMsg) (message : Str) :
    (chat oracle tools intentReply history message).toolRounds ≤ maxToolRounds ∧
    (chat oracle tools intentReply history message).modelCalls ≤ maxToolRounds + 1 ∧
    (chatStream oracle tools intentReply history message).toolRounds ≤ maxToolRounds ∧
    (chatStream oracle tools intentReply history message).modelCalls ≤ maxToolRounds ∧
    (isOffTopicReply intentReply = false →
      (chat oracle tools intentReply history message).finalText =
        withFallback (chat oracle tools intentReply history message).lastContent ∧
      (chatStream oracle tools intentReply history message).finalText =
        withFallback (chatStream oracle tools intentReply history message).lastContent ∧
      (trimS (chatStream oracle tools intentReply history message).lastContent = [] →
        (chatStream oracle tools intentReply history message).finalText = FALLBACK_TEXT)) := by
  by_cases h : isOffTopicReply intentReply
  · simp [chat, chatStream, h, maxToolRounds]
  · have hcl := chatLoop_rounds_le oracle tools maxToolRounds
      (ChatMsg.system SYSTEM_PROMPT :: history ++ [ChatMsg.human message])
      (oracle (ChatMsg.system SYSTEM_PROMPT :: history ++ [ChatMsg.human message]))
    have hsl := streamLoop_bounds oracle tools maxToolRounds
      (ChatMsg.system SYSTEM_PROMPT :: history ++ [ChatMsg.human message]) []
    simp only [chat, chatStream, h, Bool.false_eq_true, if_false]
    refine ⟨hcl, by omega, hsl.2, hsl.1, fun _ => ⟨trivial, trivial, fun ht => ?_⟩⟩
    unfold withFallback
    rw [if_pos ht]

/-- C1 witness: with a model that keeps requesting `market_historical`
forever, the loop stops after the budget and falls back to the default
sentence. -/
theorem c1_round_budget_witness :
    (chat oracleLooping toolsMH ("Yes".data) [] ("hi".data)).toolRounds ≤ maxToolRounds ∧
    (chatStream oracleLooping toolsMH ("Yes".data) [] ("hi".data)).finalText = FALLBACK_TEXT := by
  have h := c1_round_budget oracleLooping toolsMH ("Yes".data) [] ("hi".data)
  exact ⟨h.1, (h.2.2.2.2 (by decide)).2.2 (by decide)⟩

/-- C2 counterexample: on the off-topic path neither `chat` nor `chatStream`
persists anything — no assistant turn is appended and no intent state is
written — contradicting the claim that every terminal path persists exactly
one assistant turn together with an off-topic `IntentState`. -/
theorem c2_counterexample_off_topic_persists_nothing :
    (chat oracleNull [] ("No".data) [] ("What is the weather today?".data)).appendedTurns = [] ∧
    (chat oracleNull [] ("No".data) [] ("What is the weather today?".data)).intentUpdates = [] ∧
    (chat oracleNull [] ("No".data) [] ("What is the weather today?".data)).finalText =
      OFF_TOPIC_MESSAGE ∧
    (chatStream oracleNull [] ("No".data) [] ("What is the weather today?".data)).appendedTurns =
      [] ∧
    (chatStream oracleNull [] ("No".data) [] ("What is the weather today?".data)).intentUpdates =
      [] :=
  ⟨rfl, rfl, rfl, rfl, rfl⟩

/-- C2 amended: the on-topic terminal paths (final answer and round-budget
fallback) persist exactly one assistant turn via a single `appendTurn` call,
while the off-topic path persists nothing — no turn and no intent state — and
returns the fixed refusal; `updateIntentState` is never called on any path. -/
theorem c2_persistence_per_path (oracle : ModelOracle) (tools : ToolReg) (intentReply : Str)
    (history : List ChatMsg) (message : Str) :
    (chat oracle tools intentReply history message).intentUpdates = [] ∧
    (chatStream oracle tools intentReply history message).intentUpdates = [] ∧
    (isOffTopicReply intentReply = true →
      (chat oracle tools intentReply history message).appendedTurns = [] ∧
      (chat oracle tools intentReply history message).finalText = OFF_TOPIC_MESSAGE ∧
      (chatStream oracle tools intentReply history message).appendedTurns = []) ∧
    (isOffTopicReply intentReply = false →
      (chat oracle tools intentReply history message).appendedTurns =
        [(message, (chat oracle tools intentReply history message).finalText)] ∧
      (chatStream oracle tools intentReply history message).appendedTurns =
        [(message, (chatStream oracle tools intentReply history message).finalText)]) := by
  by_cases h : isOffTopicReply intentReply <;>
    simp [chat, chatStream, h]

/-- C2 witness: a concrete on-topic request persists exactly one turn. -/
theorem c2_persistence_per_path_witness :
    (chat oracleDone [] ("Yes".data) [] ("How is my portfolio?".data)).appendedTurns =
      [(("How is my portfolio?".data),
        (chat oracleDone [] ("Yes".data) [] ("How is my portfolio?".data)).finalText)] :=
  ((c2_persistence_per_path oracleDone [] ("Yes".data) [] ("How is my portfolio?".data)).2.2.2
    (by decide)).1

/-- C3 counterexample: the message "How is my portfolio doing?" contains the
domain keyword "portfolio", yet when the classifier replies "No" the gate
decides off-topic and returns the refusal — the heuristic override promised by
the claim does not exist. -/
theorem c3_counterexample_keyword_not_overriding :
    containsDomainKeyword ("How is my portfolio doing?".data) = true ∧
    (chat oracleNull [] ("No".data) [] ("How is my portfolio doing?".data)).offTopic = true ∧
    (chat oracleNull [] ("No".data) [] ("How is my portfolio doing?".data)).finalText =
      OFF_TOPIC_MESSAGE ∧
    (chatStream oracleNull [] ("No".data) [] ("How is my portfolio doing?".data)).offTopic =
      true :=
  ⟨by decide, rfl, rfl, rfl⟩

/-- C3 amended: the gate decision is a function of the classifier reply alone
— off-topic iff the trimmed lower-cased reply contains "no" without containing
"yes", or equals "n" — and the message content (domain keywords included) has
no influence on it. -/
theorem c3_gate_ignores_message (oracle : ModelOracle) (tools : ToolReg) (intentReply : Str)
    (history : List ChatMsg) (message : Str) :
    (chat oracle tools intentReply history message).offTopic = isOffTopicReply intentReply ∧
    (chatStream oracle tools intentReply history message).offTopic =
      isOffTopicReply intentReply ∧
    isOffTopicReply intentReply =
      ((includesS (toLowerS (trimS intentReply)) ("no".data) &&
        !includesS (toLowerS (trimS intentReply)) ("yes".data)) ||
        toLowerS (trimS intentReply) = "n".data) := by
  refine ⟨?_, ?_, rfl⟩ <;>
    · by_cases h : isOffTopicReply intentReply <;>
        simp [chat, chatStream, h]

/-- C4: evaluation of `getHistory` at a corrupted stored value.  The JSON
string "[1]" deserializes to an array whose single entry is not a turn object,
yet `getHistory` converts it into one bogus `AIMessage` with `undefined`
content instead of returning the empty list the doc comment promises; the
same entry is correctly discarded on the already-deserialized-array path. -/
theorem c4_corrupted_history_not_discarded :
    getHistory (some (.strRaw (some (.jarr [.jnum 1])))) DEFAULT_MAX_HISTORY_MESSAGES =
      .ok [BaseMsg.aiB none] ∧
    validStoredEntry (.jnum 1) = false ∧
    getHistory (some (.arrRaw [.jnum 1])) DEFAULT_MAX_HISTORY_MESSAGES = .ok [] ∧
    getHistory (some (.strRaw (some (.jarr [.jnull])))) DEFAULT_MAX_HISTORY_MESSAGES =
      .error () :=
  ⟨rfl, rfl, rfl, rfl⟩

theorem extractIntent_entities (fs : List (Str × JValue)) :
    (extractIntent fs).recentEntities.length ≤ DEFAULT_MAX_RECENT_ENTITIES ∧
    ∀ e ∈ (extractIntent fs).recentEntities, e ≠ [] := by
  have hre : (extractIntent fs).recentEntities =
      (match jget fs ("recentEntities".data) with
       | some (.jarr xs) =>
         sliceNeg (((xs.filterMap (fun x => match x with | .jstr s => some s | _ => none)).map
           trimS).filter (fun e => e ≠ [])) DEFAULT_MAX_RECENT_ENTITIES
       | _ => []) := rfl
  rw [hre]
  rcases h : jget fs ("recentEntities".data) with _ | v
  · simp
  · cases v with
    | jarr xs =>
      refine ⟨sliceNeg_length_le _ (by decide), ?_⟩
      intro e he
      have hf := List.of_mem_filter ((sliceNeg_sublist _ _).subset he)
      simpa using hf
    | jnull => simp
    | jbool b => simp
    | jnum n => simp
    | jstr s => simp
    | jobj gs => simp

theorem parseIntentState_entities (raw : Option IntentRaw) :
    (parseIntentState raw).recentEntities.length ≤ DEFAULT_MAX_RECENT_ENTITIES ∧
    ∀ e ∈ (parseIntentState raw).recentEntities, e ≠ [] := by
  rcases raw with _ | r
  · simp [parseIntentState, defaultIntentState]
  · rcases r with p | v
    · rcases p with _ | v
      · simp [parseIntentState, defaultIntentState]
      · cases v with
        | jobj fs => exact extractIntent_entities fs
        | jarr xs => exact extractIntent_entities []
        | jnull => simp [parseIntentState, defaultIntentState]
        | jbool b => simp [parseIntentState, defaultIntentState]
        | jnum n => simp [parseIntentState, defaultIntentState]
        | jstr s => simp [parseIntentState, defaultIntentState]
    · cases v with
      | jobj fs => exact extractIntent_entities fs
      | jarr xs => exact extractIntent_entities []
      | jnull => simp [parseIntentState, defaultIntentState]
      | jbool b => simp [parseIntentState, defaultIntentState]
      | jnum n => simp [parseIntentState, defaultIntentState]
      | jstr s => simp [parseIntentState, defaultIntentState]

theorem updateIntentState_entities (current : IntentState) (patch : IntentPatch) (now : Str) :
    (updateIntentState current patch now).recentEntities.length ≤
      DEFAULT_MAX_RECENT_ENTITIES ∧
    (updateIntentState current patch now).recentEntities.Nodup ∧
    (∀ e ∈ (updateIntentState current patch now).recentEntities,
      e ≠ [] ∧ e ∈ (current.recentEntities ++ patch.recentEntities.getD []).map trimS) ∧
    (updateIntentState current patch now).updatedAt = now := by
  have hre : (updateIntentState current patch now).recentEntities =
      sliceNeg (dedupFirst (((current.recentEntities ++ patch.recentEntities.getD []).map
        trimS).filter (fun e => e ≠ []))) DEFAULT_MAX_RECENT_ENTITIES := rfl
  rw [hre]
  refine ⟨sliceNeg_length_le _ (by decide),
    List.Nodup.sublist (sliceNeg_sublist _ _) (dedupFirst_nodup _), ?_, rfl⟩
  intro e he
  have hm := mem_dedupFirst ((sliceNeg_sublist _ _).subset he)
  exact ⟨by simpa using List.of_mem_filter hm, List.mem_of_mem_filter hm⟩

/-- C5 counterexample: a stored intent state whose `recentEntities` contains
the same ticker twice is parsed by `getIntentState` without deduplication, so
the claimed no-duplicates invariant fails for values parsed from raw storage
(only `updateIntentState` deduplicates). -/
theorem c5_counterexample_parse_keeps_duplicates :
    (parseIntentState (some (.valRawI (.jobj [("recentEntities".data,
      .jarr [.jstr ("AAPL".data), .jstr ("AAPL".data)])])))).recentEntities =
      ["AAPL".data, "AAPL".data] ∧
    ¬ (parseIntentState (some (.valRawI (.jobj [("recentEntities".data,
      .jarr [.jstr ("AAPL".data), .jstr ("AAPL".data)])])))).recentEntities.Nodup :=
  ⟨rfl, by decide⟩

/-- C5 amended: after any `updateIntentState` the entity list is capped at 20,
duplicate-free and blank-free, is drawn from the union of the current list and
the patch (trimmed), and `updatedAt` is always stamped with the write time;
values parsed from raw storage by `getIntentState` are capped and blank-free
but are not deduplicated. -/
theorem c5_entities_invariants :
    (∀ (current : IntentState) (patch : IntentPatch) (now : Str),
      (updateIntentState current patch now).recentEntities.length ≤
        DEFAULT_MAX_RECENT_ENTITIES ∧
      (updateIntentState current patch now).recentEntities.Nodup ∧
      (∀ e ∈ (updateIntentState current patch now).recentEntities,
        e ≠ [] ∧ e ∈ (current.recentEntities ++ patch.recentEntities.getD []).map trimS) ∧
      (updateIntentState current patch now).updatedAt = now) ∧
    (∀ raw : Option IntentRaw,
      (parseIntentState raw).recentEntities.length ≤ DEFAULT_MAX_RECENT_ENTITIES ∧
      ∀ e ∈ (parseIntentState raw).recentEntities, e ≠ []) :=
  ⟨updateIntentState_entities, parseIntentState_entities⟩

/-- C5 witness: concrete instantiation discharging the membership
hypotheses of the invariants. -/
theorem c5_entities_invariants_witness :
    (("AAPL".data : Str) ≠ [] ∧
      ("AAPL".data : Str) ∈ ((defaultIntentState.recentEntities ++
        (IntentPatch.mk none none (some ["AAPL ".data]) none).recentEntities.getD []).map
          trimS)) ∧
    ("X".data : Str) ≠ [] :=
  ⟨(c5_entities_invariants.1 defaultIntentState
      (IntentPatch.mk none none (some ["AAPL ".data]) none) ("t".data)).2.2.1
      ("AAPL".data) (by decide),
   (c5_entities_invariants.2 (some (.valRawI (.jobj [("recentEntities".data,
      .jarr [.jstr ("X".data)])])))).2 ("X".data) (by decide)⟩

/-- C6 counterexample: a round in which `market_historical` returns an
`Error:`-prefixed missing-argument result is not short-circuited: the
orchestrator issues a second model call, never writes `pendingClarification`
(no `updateIntentState` call occurs), and persists the model's follow-up text
rather than a clarification. -/
theorem c6_counterexample_no_short_circuit :
    (chat oracleMissingArgs toolsMH ("Yes".data) []
      ("What was the price of AAPL?".data)).modelCalls = 2 ∧
    (chat oracleMissingArgs toolsMH ("Yes".data) []
      ("What was the price of AAPL?".data)).toolRounds = 1 ∧
    (chat oracleMissingArgs toolsMH ("Yes".data) []
      ("What was the price of AAPL?".data)).intentUpdates = [] ∧
    (chat oracleMissingArgs toolsMH ("Yes".data) []
      ("What was the price of AAPL?".data)).finalText = "final".data ∧
    startsWithS (mhRegistered (Except.ok []) (.asString (.jobj []))) ("Error:".data) = true :=
  ⟨rfl, rfl, rfl, rfl, by decide⟩

/-- C6 amended: the orchestrator never inspects tool results: every round
whose response carries tool calls is followed by another model call while
budget remains (`modelCalls = 1 + toolRounds` in `chat`), and
`updateIntentState` — hence `pendingClarification` — is never written on any
path. -/
theorem c6_tool_errors_fed_back (oracle : ModelOracle) (tools : ToolReg) (intentReply : Str)
    (history : List ChatMsg) (message : Str) :
    (chat oracle tools intentReply history message).intentUpdates = [] ∧
    (chatStream oracle tools intentReply history message).intentUpdates = [] ∧
    (isOffTopicReply intentReply = false →
      (chat oracle tools intentReply history message).modelCalls =
        1 + (chat oracle tools intentReply history message).toolRounds) := by
  by_cases h : isOffTopicReply intentReply <;> simp [chat, chatStream, h]

/-- C6 witness: concrete instantiation discharging the on-topic hypothesis. -/
theorem c6_tool_errors_fed_back_witness :
    (chat oracleDone toolsMH ("Yes".data) [] ("show my report".data)).modelCalls =
      1 + (chat oracleDone toolsMH ("Yes".data) [] ("show my report".data)).toolRounds :=
  (c6_tool_errors_fed_back oracleDone toolsMH ("Yes".data) [] ("show my report".data)).2.2
    (by decide)

/-- C7 counterexample: for the message "price of AAPL on Jan 15" with a prior
turn mentioning "2024", a model tool call supplying only the symbol is
delivered to `market_historical` exactly as `{symbol: "AAPL"}` — no
`dataSource`, `from` or `to` is filled in, so the delivered arguments differ
from the hydrated object the claim promises. -/
theorem c7_counterexample_no_hydration :
    (chat oracleSymbolOnly toolsMH ("Yes".data)
      [ChatMsg.human ("what about 2024?".data)]
      ("price of AAPL on Jan 15".data)).invocations =
      [("market_historical".data,
        DeliveredInput.asString (.jobj [("symbol".data, .jstr ("AAPL".data))]))] ∧
    jget [("symbol".data, JValue.jstr ("AAPL".data))] ("from".data) = none ∧
    (match hydratedArgsSpec with
     | JValue.jobj fs => jget fs ("from".data)
     | _ => none) = some (.jstr ("2024-01-15".data)) ∧
    JValue.jobj [("symbol".data, .jstr ("AAPL".data))] ≠ hydratedArgsSpec := by
  refine ⟨rfl, rfl, rfl, fun hcontra => ?_⟩
  have h2 := congrArg (fun v => match v with
    | JValue.jobj fs => fs.length
    | _ => 0) hcontra
  exact absurd h2 (by decide)

/-- C7 amended: no argument hydration exists — every tool invocation of
`chat` and `chatStream` receives exactly the arguments of some model-requested
tool call, JSON-encoded iff the target is `market_historical`, with no field
added or changed from message or history context. -/
theorem c7_arguments_passed_verbatim (oracle : ModelOracle) (tools : ToolReg)
    (intentReply : Str) (history : List ChatMsg) (message : Str) :
    (∀ p ∈ (chat oracle tools intentReply history message).invocations,
      ∃ tc : ToolCallReq, p = (tc.name, deliveredInputFor tc)) ∧
    (∀ p ∈ (chatStream oracle tools intentReply history message).invocations,
      ∃ tc : ToolCallReq, p = (tc.name, deliveredInputFor tc)) := by
  constructor <;> intro p hp
  · by_cases h : isOffTopicReply intentReply
    · simp [chat, h] at hp
    · simp only [chat, h, Bool.false_eq_true, if_false] at hp
      exact chatLoop_invocations oracle tools maxToolRounds _ _ p hp
  · by_cases h : isOffTopicReply intentReply
    · simp [chatStream, h] at hp
    · simp only [chatStream, h, Bool.false_eq_true, if_false] at hp
      exact streamLoop_invocations oracle tools maxToolRounds _ _ p hp

/-- C7 witness: the single invocation of the counterexample run is indeed a
verbatim pass-through of a model-requested call. -/
theorem c7_arguments_passed_verbatim_witness :
    ∃ tc : ToolCallReq,
      (("market_historical".data : Str),
        DeliveredInput.asString (.jobj [("symbol".data, JValue.jstr ("AAPL".data))])) =
      (tc.name, deliveredInputFor tc) :=
  (c7_arguments_passed_verbatim oracleSymbolOnly toolsMH ("Yes".data)
    [ChatMsg.human ("what about 2024?".data)] ("price of AAPL on Jan 15".data)).1
    _ (List.mem_singleton_self _)

theorem startsWith_conflict {s p : Str} (hf : startsWithS s p = false)
    (ht : startsWithS s p = true) : False := by
  rw [ht] at hf
  exact Bool.noConfusion hf

theorem mhMain_backend_error (v : JValue) (e : Str) :
    startsWithS (marketHistoricalFunc.marketHistoricalMain v (.error e))
      ("Error:".data) = true := by
  unfold marketHistoricalFunc.marketHistoricalMain
  have hdate : startsWithS
      ("Error: Invalid date format. Use YYYY-MM-DD for from and to.".data)
      ("Error:".data) = true := by decide
  rcases zodParseMH v with m | args
  · exact startsWith_extend (startsWith_extend (by decide))
  · dsimp only
    rcases parseIsoDate args.fromS with _ | fd
    · rcases parseIsoDate args.toS with _ | td <;> (dsimp only; exact hdate)
    · rcases parseIsoDate args.toS with _ | td
      · dsimp only
        exact hdate
      · dsimp only
        by_cases h1 : ymdLt td fd = true
        · rw [if_pos h1]
          exact (by decide)
        · rw [if_neg h1]
          by_cases h2 : DATA_SOURCE_VALUES.contains args.dataSource = true
          · rw [if_neg (fun hC => hC h2)]
            exact startsWith_extend (by decide)
          · rw [if_pos h2]
            exact startsWith_extend (startsWith_extend (by decide))

theorem mhMain_ok_shape (v : JValue) (hist : Except Str HistResult) :
    startsWithS (marketHistoricalFunc.marketHistoricalMain v hist)
      ("Error:".data) = false →
    ∃ (args : MHArgs) (fd td : YMD) (res : HistResult),
      zodParseMH v = .ok args ∧
      parseIsoDate args.fromS = some fd ∧ parseIsoDate args.toS = some td ∧
      ymdLt td fd = false ∧
      DATA_SOURCE_VALUES.contains args.dataSource = true ∧
      hist = .ok res := by
  unfold marketHistoricalFunc.marketHistoricalMain
  rcases zodParseMH v with m | args
  · intro h
    exact (startsWith_conflict h (startsWith_extend (startsWith_extend (by decide)))).elim
  · dsimp only
    rcases hfd : parseIsoDate args.fromS with _ | fd
    · rcases parseIsoDate args.toS with _ | td <;>
        (dsimp only; intro h; exact (startsWith_conflict h (by decide)).elim)
    · rcases htd : parseIsoDate args.toS with _ | td
      · dsimp only
        intro h
        exact (startsWith_conflict h (by decide)).elim
      · dsimp only
        by_cases h1 : ymdLt td fd = true
        · rw [if_pos h1]
          intro h
          exact (startsWith_conflict h (by decide)).elim
        · rw [if_neg h1]
          by_cases h2 : DATA_SOURCE_VALUES.contains args.dataSource = true
          · rw [if_neg (fun hC => hC h2)]
            rcases hist with e | res
            · intro h
              exact (startsWith_conflict h (startsWith_extend (by decide))).elim
            · dsimp only
              intro _
              exact ⟨args, fd, td, res, rfl, hfd, htd, by simpa using h1, h2, rfl⟩
          · rw [if_pos h2]
            intro h
            exact (startsWith_conflict h
              (startsWith_extend (startsWith_extend (by decide)))).elim

theorem marketHistorical_ok_shape (input : MHInput) (hist : Except Str HistResult) :
    startsWithS (marketHistoricalFunc input hist) ("Error:".data) = false →
    ∃ (v : JValue) (args : MHArgs) (fd td : YMD) (res : HistResult),
      mhParsedInput input = some v ∧ zodParseMH v = .ok args ∧
      parseIsoDate args.fromS = some fd ∧ parseIsoDate args.toS = some td ∧
      ymdLt td fd = false ∧ DATA_SOURCE_VALUES.contains args.dataSource = true ∧
      hist = .ok res := by
  cases input with
  | strRawT p =>
    cases p with
    | none =>
      intro h
      exact (startsWith_conflict h (startsWith_extend (by decide))).elim
    | some v =>
      intro h
      obtain ⟨args, fd, td, res, h1, h2, h3, h4, h5, h6⟩ := mhMain_ok_shape v hist h
      exact ⟨v, args, fd, td, res, rfl, h1, h2, h3, h4, h5, h6⟩
  | objRawT v =>
    intro h
    obtain ⟨args, fd, td, res, h1, h2, h3, h4, h5, h6⟩ := mhMain_ok_shape v hist h
    exact ⟨v, args, fd, td, res, rfl, h1, h2, h3, h4, h5, h6⟩
  | nullRawT =>
    intro h
    obtain ⟨args, fd, td, res, h1, h2, h3, h4, h5, h6⟩ := mhMain_ok_shape (.jobj []) hist h
    exact ⟨.jobj [], args, fd, td, res, rfl, h1, h2, h3, h4, h5, h6⟩

theorem ct_backend_error (input : CTInput) (e : Str) (upd : Nat → Option Str) :
    startsWithS (cashTransferRun input (.error e) upd).1 ("Error:".data) = true ∧
    (cashTransferRun input (.error e) upd).2 = [] := by
  unfold cashTransferRun
  have hamount : startsWithS ERR_AMOUNT ("Error:".data) = true := by decide
  rcases parseArgsCT input with m | args
  · exact ⟨startsWith_extend (by decide), rfl⟩
  · dsimp only
    rcases args.amount with _ | amt
    · dsimp only
      exact ⟨hamount, rfl⟩
    · dsimp only
      by_cases h : amt ≤ 0
      · rw [if_pos h]
        exact ⟨hamount, rfl⟩
      · rw [if_neg h]
        exact ⟨startsWith_extend (by decide), rfl⟩

theorem ct_ok_shape (input : CTInput) (ga : Except Str (List Account))
    (upd : Nat → Option Str) :
    startsWithS (cashTransferRun input ga upd).1 ("Error:".data) = false →
    ∃ (args : CTArgs) (amt : Int) (accounts : List Account) (fromA toA : Account),
      parseArgsCT input = .ok args ∧ args.amount = some amt ∧ 0 < amt ∧
      ga = .ok accounts ∧
      resolveAccount accounts args.fromAccountId args.fromAccountName = .ok fromA ∧
      resolveAccount accounts args.toAccountId args.toAccountName = .ok toA ∧
      fromA.id ≠ toA.id ∧ amt ≤ fromA.balance ∧
      (args.confirm ≠ some true ∨ (upd 0 = none ∧ upd 1 = none)) := by
  unfold cashTransferRun
  rcases hp : parseArgsCT input with m | args
  · intro h
    exact (startsWith_conflict h (startsWith_extend (by decide))).elim
  · dsimp only
    rcases ham : args.amount with _ | amt
    · dsimp only
      intro h
      exact (startsWith_conflict h (by decide)).elim
    · dsimp only
      by_cases hle : amt ≤ 0
      · rw [if_pos hle]
        intro h
        exact (startsWith_conflict h (by decide)).elim
      · rw [if_neg hle]
        rcases hga : ga with m | accounts
        · intro h
          exact (startsWith_conflict h (startsWith_extend (by decide))).elim
        · dsimp only
          rcases hfrom : resolveAccount accounts args.fromAccountId args.fromAccountName
            with m | fromA
          · intro h
            exact (startsWith_conflict h (startsWith_extend (by decide))).elim
          · dsimp only
            rcases hto : resolveAccount accounts args.toAccountId args.toAccountName
              with m | toA
            · intro h
              exact (startsWith_conflict h (startsWith_extend (by decide))).elim
            · dsimp only
              by_cases hid : fromA.id = toA.id
              · rw [if_pos hid]
                intro h
                exact (startsWith_conflict h (by decide)).elim
              · rw [if_neg hid]
                by_cases hbal : fromA.balance < amt
                · rw [if_pos hbal]
                  intro h
                  exact (startsWith_conflict h (startsWith_extend (startsWith_extend
                    (startsWith_extend (startsWith_extend (startsWith_extend
                      (startsWith_extend (by decide)))))))).elim
                · rw [if_neg hbal]
                  by_cases hconf : args.confirm = some true
                  · rw [if_neg (fun hC => hC hconf)]
                    rcases hupd0 : upd 0 with _ | m
                    · dsimp only
                      rcases hupd1 : upd 1 with _ | m2
                      · dsimp only
                        intro _
                        exact ⟨args, amt, accounts, fromA, toA, rfl, ham, by omega,
                          rfl, hfrom, hto, hid, by omega, Or.inr ⟨rfl, rfl⟩⟩
                      · dsimp only
                        intro h
                        exact (startsWith_conflict h (startsWith_extend (by decide))).elim
                    · dsimp only
                      intro h
                      exact (startsWith_conflict h (startsWith_extend (by decide))).elim
                  · rw [if_pos hconf]
                    intro _
                    exact ⟨args, amt, accounts, fromA, toA, rfl, ham, by omega,
                      rfl, hfrom, hto, hid, by omega, Or.inl hconf⟩

theorem al_backend_error (input : CTInput) (e : Str) :
    startsWithS (activitiesListFunc input (fun _ => .error e)) ("Error:".data) = true := by
  unfold activitiesListFunc
  rcases parseALArgs input with m | args
  · exact startsWith_extend (by decide)
  · dsimp only
    exact startsWith_extend (by decide)

theorem al_ok_shape (input : CTInput) (go : ALArgs → Except Str (List Activity)) :
    startsWithS (activitiesListFunc input go) ("Error:".data) = false →
    ∃ (args : ALArgs) (acts : List Activity),
      parseALArgs input = .ok args ∧ go args = .ok acts := by
  unfold activitiesListFunc
  rcases parseALArgs input with m | args
  · intro h
    exact (startsWith_conflict h (startsWith_extend (by decide))).elim
  · dsimp only
    rcases hgo : go args with e | acts
    · intro h
      exact (startsWith_conflict h (startsWith_extend (by decide))).elim
    · dsimp only
      intro _
      exact ⟨args, acts, rfl, hgo⟩

/-- C8: none of the six registered tools raises past its boundary — every
embedded body is a total function into a reply string — and every failure
path yields an `Error:`-prefixed string: a thrown backend call for each of
`market_historical`, `cash_transfer`, `portfolio_performance`,
`portfolio_details`, `portfolio_report` and `activities_list`; the
argument-validation failures of `market_historical` (schema, date format,
date range, data source — a non-`Error:` reply is only produced when the
input parsed, the schema, both dates, the range and the data source all
passed and the provider call succeeded); the argument and precondition
failures of `cash_transfer` (a non-`Error:` reply requires the amount,
account-resolution, distinctness, balance preconditions, and is otherwise a
preview or a transfer with both balance updates succeeding); and the
null-argument `TypeError` of `activities_list` (a non-`Error:` reply
requires the filters to parse and the order lookup to succeed). -/
theorem c8_tools_error_boundary :
    (∀ (input : MHInput) (e : Str),
      startsWithS (marketHistoricalFunc input (.error e)) ("Error:".data) = true) ∧
    (∀ (v : JValue) (hist : Except Str HistResult) (m : Str), zodParseMH v = .error m →
      startsWithS (marketHistoricalFunc (.objRawT v) hist) ("Error:".data) = true) ∧
    (∀ (input : MHInput) (hist : Except Str HistResult),
      startsWithS (marketHistoricalFunc input hist) ("Error:".data) = false →
      ∃ (v : JValue) (args : MHArgs) (fd td : YMD) (res : HistResult),
        mhParsedInput input = some v ∧ zodParseMH v = .ok args ∧
        parseIsoDate args.fromS = some fd ∧ parseIsoDate args.toS = some td ∧
        ymdLt td fd = false ∧ DATA_SOURCE_VALUES.contains args.dataSource = true ∧
        hist = .ok res) ∧
    (∀ (input : CTInput) (e : Str) (upd : Nat → Option Str),
      startsWithS (cashTransferRun input (.error e) upd).1 ("Error:".data) = true ∧
      (cashTransferRun input (.error e) upd).2 = []) ∧
    (∀ (input : CTInput) (ga : Except Str (List Account)) (upd : Nat → Option Str),
      startsWithS (cashTransferRun input ga upd).1 ("Error:".data) = false →
      ∃ (args : CTArgs) (amt : Int) (accounts : List Account) (fromA toA : Account),
        parseArgsCT input = .ok args ∧ args.amount = some amt ∧ 0 < amt ∧
        ga = .ok accounts ∧
        resolveAccount accounts args.fromAccountId args.fromAccountName = .ok fromA ∧
        resolveAccount accounts args.toAccountId args.toAccountName = .ok toA ∧
        fromA.id ≠ toA.id ∧ amt ≤ fromA.balance ∧
        (args.confirm ≠ some true ∨ (upd 0 = none ∧ upd 1 = none))) ∧
    (∀ (input : PerfInput) (e : Str),
      startsWithS (portfolioPerformanceFunc input (fun _ => .error e))
        ("Error:".data) = true) ∧
    (∀ e : Str, startsWithS (portfolioDetailsFunc (.error e)) ("Error:".data) = true) ∧
    (∀ e : Str, startsWithS (portfolioReportFunc (.error e)) ("Error:".data) = true) ∧
    (∀ (input : CTInput) (e : Str),
      startsWithS (activitiesListFunc input (fun _ => .error e))
        ("Error:".data) = true) ∧
    (∀ (input : CTInput) (go : ALArgs → Except Str (List Activity)) (m : Str),
      parseALArgs input = .error m →
      startsWithS (activitiesListFunc input go) ("Error:".data) = true) ∧
    (∀ (input : CTInput) (go : ALArgs → Except Str (List Activity)),
      startsWithS (activitiesListFunc input go) ("Error:".data) = false →
      ∃ (args : ALArgs) (acts : List Activity),
        parseALArgs input = .ok args ∧ go args = .ok acts) := by
  refine ⟨?_, ?_, marketHistorical_ok_shape, ct_backend_error, ct_ok_shape, ?_,
    ?_, ?_, al_backend_error, ?_, al_ok_shape⟩
  · intro input e
    cases input with
    | strRawT p =>
      cases p with
      | none => exact startsWith_extend (by decide)
      | some v => exact mhMain_backend_error v e
    | objRawT v => exact mhMain_backend_error v e
    | nullRawT => exact mhMain_backend_error (.jobj []) e
  · intro v hist m hz
    show startsWithS (marketHistoricalFunc.marketHistoricalMain v hist)
      ("Error:".data) = true
    unfold marketHistoricalFunc.marketHistoricalMain
    rw [hz]
    exact startsWith_extend (startsWith_extend (by decide))
  · intro input e
    unfold portfolioPerformanceFunc
    exact startsWith_extend (by decide)
  · intro e
    exact startsWith_extend (by decide)
  · intro e
    exact startsWith_extend (by decide)
  · intro input go m hm
    unfold activitiesListFunc
    rw [hm]
    exact startsWith_extend (by decide)

/-- C8 witness: a fully-valid market-historical request is classified as
having passed every validation stage, a null activities argument is rejected
with an `Error:` string, and a non-object market-historical argument is
rejected with an `Error:` string. -/
theorem c8_tools_error_boundary_witness :
    (∃ (v : JValue) (args : MHArgs) (fd td : YMD) (res : HistResult),
      mhParsedInput (.objRawT mhValidArgs) = some v ∧ zodParseMH v = .ok args ∧
      parseIsoDate args.fromS = some fd ∧ parseIsoDate args.toS = some td ∧
      ymdLt td fd = false ∧ DATA_SOURCE_VALUES.contains args.dataSource = true ∧
      (Except.ok [] : Except Str HistResult) = .ok res) ∧
    startsWithS (activitiesListFunc (.strRawC (some .jnull)) (fun _ => .ok []))
      ("Error:".data) = true ∧
    startsWithS (marketHistoricalFunc (.objRawT .jnull) (.ok [])) ("Error:".data) = true :=
  ⟨c8_tools_error_boundary.2.2.1 (.objRawT mhValidArgs) (.ok []) (by decide),
   c8_tools_error_boundary.2.2.2.2.2.2.2.2.2.1 (.strRawC (some .jnull)) (fun _ => .ok [])
     ("Cannot read properties of null".data) rfl,
   c8_tools_error_boundary.2.1 .jnull (.ok [])
     (": Expected object, received null".data) rfl⟩

theorem retryGo_spec (fn : Nat → Except NetErr T) (le : Except NetErr T) :
    ∀ (f a : Nat), a + f = RETRY_ATTEMPTS → 1 ≤ f →
      1 ≤ (retryGo fn le a f).2.1 ∧
      (retryGo fn le a f).2.1 ≤ f ∧
      (retryGo fn le a f).2.2 = (List.range ((retryGo fn le a f).2.1 - 1)).map
        (fun i => RETRY_DELAY_MS * 2 ^ (a + i)) ∧
      (∀ i, i + 1 < (retryGo fn le a f).2.1 →
        ∃ e, fn (a + i) = .error e ∧ isNetworkError e = true) ∧
      (retryGo fn le a f).1 = fn (a + ((retryGo fn le a f).2.1 - 1)) := by
  intro f
  induction f generalizing le with
  | zero => intro a _ h1; omega
  | succ n ih =>
    intro a ha _
    rcases hfa : fn a with e | v
    case ok =>
      simp only [retryGo, hfa]
      refine ⟨by omega, by omega, by simp, fun i hi => absurd hi (by omega), ?_⟩
      simpa using hfa.symm
    case error =>
      by_cases hc : (decide (a < RETRY_ATTEMPTS - 1) && isNetworkError e) = true
      · have hc2 := hc
        rw [Bool.and_eq_true, decide_eq_true_eq] at hc2
        obtain ⟨ha2, hne⟩ := hc2
        have hn1 : 1 ≤ n := by
          unfold RETRY_ATTEMPTS at ha ha2
          omega
        have hrec := ih (.error e) (a + 1) (by omega) hn1
        simp only [retryGo, hfa, hc, if_true]
        obtain ⟨k, hk⟩ : ∃ k, (retryGo fn (.error e) (a + 1) n).2.1 = k + 1 :=
          ⟨(retryGo fn (.error e) (a + 1) n).2.1 - 1, by omega⟩
        refine ⟨by omega, by omega, ?_, ?_, ?_⟩
        · rw [hrec.2.2.1, hk]
          simp only [Nat.add_sub_cancel, List.range_succ_eq_map, List.map_cons, List.map_map]
          congr 1
          exact List.map_congr_left (fun i _ => by
            show RETRY_DELAY_MS * 2 ^ (a + 1 + i) = RETRY_DELAY_MS * 2 ^ (a + (i + 1))
            rw [show a + 1 + i = a + (i + 1) by omega])
        · intro i hi
          rcases i with _ | j
          · exact ⟨e, by simpa using hfa, hne⟩
          · have hj := hrec.2.2.2.1 j (by omega)
            rcases hj with ⟨e2, he2, hn2⟩
            exact ⟨e2, by rw [show a + (j + 1) = a + 1 + j by omega]; exact he2, hn2⟩
        · have hlast := hrec.2.2.2.2
          rw [hk] at hlast ⊢
          rw [hlast]
          congr 1
          omega
      · simp only [retryGo, hfa]
        rw [if_neg hc]
        dsimp only
        refine ⟨by omega, by omega, by simp, fun i hi => absurd hi (by omega), ?_⟩
        simpa using hfa.symm

/-- C9: the retry wrapper performs between 1 and 3 attempts, waits
exponentially growing delays (1500·2^i) between consecutive attempts, retries
an attempt only when it failed with a transient network signature, returns the
outcome of the last attempt, and rethrows a non-transient first failure
immediately without any retry. -/
theorem c9_retry_behaviour (fn : Nat → Except NetErr T) :
    1 ≤ (withRetryOnNetworkError fn).2.1 ∧
    (withRetryOnNetworkError fn).2.1 ≤ RETRY_ATTEMPTS ∧
    (withRetryOnNetworkError fn).2.2 =
      (List.range ((withRetryOnNetworkError fn).2.1 - 1)).map
        (fun i => RETRY_DELAY_MS * 2 ^ i) ∧
    (∀ i, i + 1 < (withRetryOnNetworkError fn).2.1 →
      ∃ e, fn i = .error e ∧ isNetworkError e = true) ∧
    (withRetryOnNetworkError fn).1 = fn ((withRetryOnNetworkError fn).2.1 - 1) ∧
    (∀ e, fn 0 = .error e → isNetworkError e = false →
      (withRetryOnNetworkError fn).2.1 = 1 ∧ (withRetryOnNetworkError fn).1 = .error e) := by
  have h := retryGo_spec fn (.error .prim) RETRY_ATTEMPTS 0 (by omega) (by decide)
  have h0 : withRetryOnNetworkError fn = retryGo fn (.error .prim) 0 RETRY_ATTEMPTS := rfl
  rw [h0]
  refine ⟨h.1, h.2.1, by simpa using h.2.2.1, by simpa using h.2.2.2.1,
    by simpa using h.2.2.2.2, ?_⟩
  intro e he hne
  have hc1 : (retryGo fn (.error .prim) 0 RETRY_ATTEMPTS).2.1 = 1 := by
    by_contra hcon
    have h2 := h.2.2.2.1 0 (by omega)
    rcases h2 with ⟨e2, he2, hn2⟩
    rw [he] at he2
    cases he2
    rw [hn2] at hne
    cases hne
  refine ⟨hc1, ?_⟩
  have := h.2.2.2.2
  rw [hc1] at this
  simpa [he] using this

/-- C9 witness: a non-transient failure is rethrown after a single attempt. -/
theorem c9_retry_behaviour_witness :
    (withRetryOnNetworkError fnNonTransient).2.1 = 1 ∧
    (withRetryOnNetworkError fnNonTransient).1 = .error errNonTransient :=
  (c9_retry_behaviour fnNonTransient).2.2.2.2.2 errNonTransient rfl (by decide)

/-- C10: the cash-transfer tool issues balance updates only when the parsed
amount is positive, the account list was fetched, both accounts resolve
uniquely, they are distinct, the source balance suffices and `confirm` is
exactly `true`; every other input yields no update call and an `Error:` or
preview reply; when it executes (and the updates succeed) it issues exactly
one debit of the source and one credit of the destination for the same
amount. -/
theorem c10_cash_transfer_guard (input : CTInput) (getAccounts : Except Str (List Account))
    (upd : Nat → Option Str) :
    ((cashTransferRun input getAccounts upd).2 ≠ [] →
      ∃ (args : CTArgs) (amt : Int) (accounts : List Account) (fromA toA : Account),
        parseArgsCT input = .ok args ∧ args.amount = some amt ∧ 0 < amt ∧
        getAccounts = .ok accounts ∧
        resolveAccount accounts args.fromAccountId args.fromAccountName = .ok fromA ∧
        resolveAccount accounts args.toAccountId args.toAccountName = .ok toA ∧
        fromA.id ≠ toA.id ∧ amt ≤ fromA.balance ∧ args.confirm = some true ∧
        (cashTransferRun input getAccounts upd).2.head? =
          some (fromA.id, -amt, fromA.currency) ∧
        (upd 0 = none →
          (cashTransferRun input getAccounts upd).2 =
            [(fromA.id, -amt, fromA.currency), (toA.id, amt, fromA.currency)])) ∧
    ((cashTransferRun input getAccounts upd).2 = [] →
      startsWithS (cashTransferRun input getAccounts upd).1 ("Error:".data) = true ∨
      startsWithS (cashTransferRun input getAccounts upd).1
        ("Transfer preview".data) = true) := by
  unfold cashTransferRun
  rcases hp : parseArgsCT input with m | args
  · exact ⟨fun hne => absurd rfl hne, fun _ => .inl (startsWith_extend (by decide))⟩
  · dsimp only
    rcases ham : args.amount with _ | amt
    · dsimp only
      exact ⟨fun hne => absurd rfl hne, fun _ => .inl (by decide)⟩
    · dsimp only
      by_cases hle : amt ≤ 0
      · rw [if_pos hle]
        exact ⟨fun hne => absurd rfl hne, fun _ => .inl (by decide)⟩
      · rw [if_neg hle]
        rcases hga : getAccounts with m | accounts
        · exact ⟨fun hne => absurd rfl hne, fun _ => .inl (startsWith_extend (by decide))⟩
        · dsimp only
          rcases hfrom : resolveAccount accounts args.fromAccountId args.fromAccountName
            with m | fromA
          · exact ⟨fun hne => absurd rfl hne, fun _ => .inl (startsWith_extend (by decide))⟩
          · dsimp only
            rcases hto : resolveAccount accounts args.toAccountId args.toAccountName
              with m | toA
            · exact ⟨fun hne => absurd rfl hne, fun _ => .inl (startsWith_extend (by decide))⟩
            · dsimp only
              by_cases hid : fromA.id = toA.id
              · rw [if_pos hid]
                exact ⟨fun hne => absurd rfl hne, fun _ => .inl (by decide)⟩
              · rw [if_neg hid]
                by_cases hbal : fromA.balance < amt
                · rw [if_pos hbal]
                  exact ⟨fun hne => absurd rfl hne,
                    fun _ => .inl (startsWith_extend (startsWith_extend (startsWith_extend
                      (startsWith_extend (startsWith_extend (startsWith_extend
                        (by decide)))))))⟩
                · rw [if_neg hbal]
                  by_cases hconf : args.confirm = some true
                  · rw [if_neg (fun hC => hC hconf)]
                    rcases hupd0 : upd 0 with _ | m
                    · dsimp only
                      rcases hupd1 : upd 1 with _ | m2
                      · dsimp only
                        refine ⟨fun _ => ⟨args, amt, accounts, fromA, toA, rfl, ham,
                          by omega, rfl, hfrom, hto, hid, by omega, hconf, rfl,
                          fun _ => rfl⟩, fun heq => absurd heq (by simp)⟩
                      · dsimp only
                        refine ⟨fun _ => ⟨args, amt, accounts, fromA, toA, rfl, ham,
                          by omega, rfl, hfrom, hto, hid, by omega, hconf, rfl,
                          fun _ => rfl⟩, fun heq => absurd heq (by simp)⟩
                    · dsimp only
                      refine ⟨fun _ => ⟨args, amt, accounts, fromA, toA, rfl, ham,
                        by omega, rfl, hfrom, hto, hid, by omega, hconf, rfl,
                        fun h0 => absurd h0 (by simp [hupd0])⟩,
                        fun heq => absurd heq (by simp)⟩
                  · rw [if_pos hconf]
                    exact ⟨fun hne => absurd rfl hne,
                      fun _ => .inr (startsWith_extend (startsWith_extend (by decide)))⟩

/-- C10 witness: a fully-specified confirmed transfer between two distinct
sufficiently-funded accounts issues exactly the debit and the credit. -/
theorem c10_cash_transfer_guard_witness :
    ∃ (args : CTArgs) (amt : Int) (accounts : List Account) (fromA toA : Account),
      parseArgsCT ctConfirmedInput = .ok args ∧
      args.amount = some amt ∧ 0 < amt ∧
      (Except.ok [acctChecking, acctSavings] : Except Str (List Account)) = .ok accounts ∧
      resolveAccount accounts args.fromAccountId args.fromAccountName = .ok fromA ∧
      resolveAccount accounts args.toAccountId args.toAccountName = .ok toA ∧
      fromA.id ≠ toA.id ∧ amt ≤ fromA.balance ∧ args.confirm = some true ∧
      (cashTransferRun ctConfirmedInput (.ok [acctChecking, acctSavings])
        updAllOk).2.head? = some (fromA.id, -amt, fromA.currency) ∧
      (updAllOk 0 = none →
        (cashTransferRun ctConfirmedInput (.ok [acctChecking, acctSavings]) updAllOk).2 =
          [(fromA.id, -amt, fromA.currency), (toA.id, amt, fromA.currency)]) :=
  (c10_cash_transfer_guard ctConfirmedInput (.ok [acctChecking, acctSavings])
    updAllOk).1 (by decide)

end Gauntlet
